import Mathlib

/-!
Verification of the samrenderer template resolver (src/samrenderer/main.py).

The development shallowly embeds the resolver in the provider-less
configuration (no AWS profile is given, so boto_session, cfn_client and
sm_client are all None): every provider branch in the source is the
fall-through mock branch here.  YAML scalars are modelled as null, bool,
int and string; mapping keys are strings, as produced by the templates the
tool consumes.  Python exceptions are modelled with an Except monad, and
the unbounded recursion of the Python resolver is modelled with an explicit
fuel parameter whose exhaustion plays the role of RecursionError.
Literal brace characters inside strings are written with \x7b and \x7d
escapes throughout.
-/

/-- A YAML/JSON-like document node: the value space the resolver walks. -/
inductive Node where
  | null
  | bool (b : Bool)
  | int (n : Int)
  | str (s : String)
  | list (xs : List Node)
  | map (kvs : List (String × Node))
deriving Inhabited

/-- The Python exceptions the source can raise or catch during resolution. -/
inductive Err where
  | typeError
  | valueError
  | indexError
  | keyError
  | attributeError
  | recursionError
deriving Repr, DecidableEq

/-- Association-list lookup, modelling a Python dict read `d[k]` keyed by strings. -/
def lookupD {α : Type} : List (String × α) → String → Option α
  | [], _ => none
  | (k0, v0) :: rest, k => if k0 = k then some v0 else lookupD rest k

/-- Python dict write `d[k] = v`: replace in place if the key exists, else append. -/
def dictInsert {α : Type} : List (String × α) → String → α → List (String × α)
  | [], k, v => [(k, v)]
  | (k0, v0) :: rest, k, v =>
    if k0 = k then (k0, v) :: rest else (k0, v0) :: dictInsert rest k v

/-- Python `d.update(us)`: insert every entry of `us` into `d`, left to right. -/
def dictUpdate {α : Type} (d : List (String × α)) (us : List (String × α)) :
    List (String × α) :=
  us.foldl (fun acc kv => dictInsert acc kv.1 kv.2) d

/-- Python truthiness (`bool(x)`) on the node value space. -/
def pyTruthy : Node → Bool
  | .null => false
  | .bool b => b
  | .int n => n != 0
  | .str s => s != ""
  | .list xs => !xs.isEmpty
  | .map kvs => !kvs.isEmpty

/-- True exactly on the null node (Python `x is None`). -/
def isNull : Node → Bool
  | .null => true
  | _ => false

/-- True exactly on string nodes (Python `isinstance(x, str)`). -/
def isStr : Node → Bool
  | .str _ => true
  | _ => false

/-- True exactly on mapping nodes (Python `isinstance(x, dict)`). -/
def isMap : Node → Bool
  | .map _ => true
  | _ => false

/-- True exactly on sequence nodes (Python `isinstance(x, list)`). -/
def isList : Node → Bool
  | .list _ => true
  | _ => false

mutual
/-- Python `==` on nodes: numeric cross-equality of bools and ints,
structural equality of strings and sequences, order-insensitive equality
of mappings. -/
def pyEq : Node → Node → Bool
  | .null, .null => true
  | .bool a, .bool b => a == b
  | .bool a, .int m => (if a then (1 : Int) else 0) == m
  | .int n, .bool b => n == (if b then (1 : Int) else 0)
  | .int n, .int m => n == m
  | .str a, .str b => a == b
  | .list a, .list b => pyEqList a b
  | .map a, .map b => a.length == b.length && pyEqMap a b
  | _, _ => false

/-- Pointwise Python `==` on sequences of equal length. -/
def pyEqList : List Node → List Node → Bool
  | [], [] => true
  | x :: xs, y :: ys => pyEq x y && pyEqList xs ys
  | _, _ => false

/-- Each key of the first mapping is present in the second with an equal value. -/
def pyEqMap : List (String × Node) → List (String × Node) → Bool
  | [], _ => true
  | (k, v) :: rest, b =>
    (match lookupD b k with
     | some w => pyEq v w
     | none => false) && pyEqMap rest b
end

/-- Python `repr` of a string: quote choice and the common escapes. -/
def pyStrRepr (s : String) : String :=
  let q : Char := if s.toList.contains '\'' && !(s.toList.contains '"') then '"' else '\''
  let esc : Char → String := fun c =>
    if c = '\\' then "\\\\"
    else if c = q then "\\" ++ String.mk [q]
    else if c = '\n' then "\\n"
    else if c = '\r' then "\\r"
    else if c = '\t' then "\\t"
    else String.mk [c]
  String.mk [q] ++ (s.toList.map esc).foldr (fun a b => a ++ b) "" ++ String.mk [q]

mutual
/-- Python `repr` on nodes (containers render their children with repr). -/
def pyRepr : Node → String
  | .null => "None"
  | .bool true => "True"
  | .bool false => "False"
  | .int n => toString n
  | .str s => pyStrRepr s
  | .list xs => "[" ++ pyReprList xs ++ "]"
  | .map kvs => "\x7b" ++ pyReprMap kvs ++ "\x7d"

/-- Comma-separated reprs of sequence elements. -/
def pyReprList : List Node → String
  | [] => ""
  | [x] => pyRepr x
  | x :: xs => pyRepr x ++ ", " ++ pyReprList xs

/-- Comma-separated `key: value` reprs of mapping entries. -/
def pyReprMap : List (String × Node) → String
  | [] => ""
  | [(k, v)] => pyStrRepr k ++ ": " ++ pyRepr v
  | (k, v) :: kvs => pyStrRepr k ++ ": " ++ pyRepr v ++ ", " ++ pyReprMap kvs
end

/-- Python `str(x)`: the string itself for strings, repr otherwise. -/
def pyStr : Node → String
  | .str s => s
  | n => pyRepr n

/-- ASCII lower-casing of one character, modelling `str.lower` on the
ASCII identifiers the tool manipulates. -/
def asciiLowerChar (c : Char) : Char :=
  if 'A' ≤ c ∧ c ≤ 'Z' then Char.ofNat (c.toNat + 32) else c

/-- ASCII `str.lower`. -/
def asciiLower (s : String) : String :=
  String.mk (s.toList.map asciiLowerChar)

/-- The whitespace characters stripped by Python `int()` and `str.split()`. -/
def pyIsSpace (c : Char) : Bool :=
  c = ' ' || c = '\t' || c = '\n' || c = '\r' || c = '\x0b' || c = '\x0c'

/-- Decimal value of a digit run. -/
def digitsVal (ds : List Char) : Nat :=
  ds.foldl (fun acc c => acc * 10 + (c.toNat - '0'.toNat)) 0

/-- Continuation of the Python integer-literal digit grammar: digits with
single underscores strictly between digits. -/
def parseUDigitsGo : List Char → List Char → Option (List Char)
  | [], acc => some acc
  | '_' :: d :: rest, acc =>
    if d.isDigit then parseUDigitsGo rest (acc ++ [d]) else none
  | ['_'], _ => none
  | d :: rest, acc =>
    if d.isDigit then parseUDigitsGo rest (acc ++ [d]) else none

/-- The digit part of a Python integer literal (nonempty, underscores allowed
between digits). -/
def parseUDigits : List Char → Option (List Char)
  | [] => none
  | c :: rest => if c.isDigit then parseUDigitsGo rest [c] else none

/-- Python `int(s)` on a string: strip surrounding whitespace, optional sign,
then the digit grammar. -/
def pyIntOfString (s : String) : Option Int :=
  let cs := s.toList.dropWhile pyIsSpace
  let cs := (cs.reverse.dropWhile pyIsSpace).reverse
  match cs with
  | '+' :: rest => (parseUDigits rest).map (fun ds => Int.ofNat (digitsVal ds))
  | '-' :: rest => (parseUDigits rest).map (fun ds => -Int.ofNat (digitsVal ds))
  | rest => (parseUDigits rest).map (fun ds => Int.ofNat (digitsVal ds))

/-- Python `int(x)`: identity on ints, 0/1 on bools, string parsing with
ValueError on failure, TypeError on the remaining node kinds. -/
def pyIntE : Node → Except Err Int
  | .bool b => .ok (if b then 1 else 0)
  | .int n => .ok n
  | .str s =>
    match pyIntOfString s with
    | some n => .ok n
    | none => .error .valueError
  | _ => .error .typeError

/-- Python subscript `obj[i]` with a nonnegative literal index, as the
handlers use on their argument object: sequence indexing, string indexing
(KeyError on a dict, since its keys are strings), TypeError otherwise. -/
def getIdx : Node → Nat → Except Err Node
  | .list xs, i =>
    match xs[i]? with
    | some v => .ok v
    | none => .error .indexError
  | .str s, i =>
    match s.toList[i]? with
    | some c => .ok (.str (String.mk [c]))
    | none => .error .indexError
  | .map _, _ => .error .keyError
  | _, _ => .error .typeError

/-- Python sequence indexing with an arbitrary integer (negative indices
count from the end). -/
def listIndexPy (xs : List Node) (i : Int) : Except Err Node :=
  let j := if i < 0 then i + xs.length else i
  if j < 0 then .error .indexError
  else
    match xs[j.toNat]? with
    | some v => .ok v
    | none => .error .indexError

/-- Python string indexing with an arbitrary integer. -/
def strIndexPy (s : String) (i : Int) : Except Err Node :=
  let cs := s.toList
  let j := if i < 0 then i + cs.length else i
  if j < 0 then .error .indexError
  else
    match cs[j.toNat]? with
    | some c => .ok (.str (String.mk [c]))
    | none => .error .indexError

/-- Python subscript `obj[key]` with an arbitrary resolved key, as
`_handle_map` performs on the Mappings table. -/
def pyGetItem : Node → Node → Except Err Node
  | .map kvs, .str k =>
    match lookupD kvs k with
    | some v => .ok v
    | none => .error .keyError
  | .map _, .list _ => .error .typeError
  | .map _, .map _ => .error .typeError
  | .map _, _ => .error .keyError
  | .list xs, .int i => listIndexPy xs i
  | .list xs, .bool b => listIndexPy xs (if b then 1 else 0)
  | .list _, _ => .error .typeError
  | .str s, .int i => strIndexPy s i
  | .str s, .bool b => strIndexPy s (if b then 1 else 0)
  | .str _, _ => .error .typeError
  | _, _ => .error .typeError

/-- Python `len(x)` for the sized node kinds, TypeError otherwise. -/
def pyLen : Node → Except Err Nat
  | .list xs => .ok xs.length
  | .str s => .ok s.toList.length
  | .map kvs => .ok kvs.length
  | _ => .error .typeError

/-- Python iteration `for v in x`: a sequence yields its elements, a string
its characters, a mapping its keys; other kinds raise TypeError. -/
def toIterable : Node → Except Err (List Node)
  | .list xs => .ok xs
  | .str s => .ok (s.toList.map (fun c => .str (String.mk [c])))
  | .map kvs => .ok (kvs.map (fun kv => .str kv.1))
  | _ => .error .typeError

/-- Remove a literal prefix from a character list, or fail. -/
def stripPrefixCh : List Char → List Char → Option (List Char)
  | [], cs => some cs
  | _ :: _, [] => none
  | p :: ps, c :: cs => if p = c then stripPrefixCh ps cs else none

/-- Substring test on character lists (Python `needle in hay`). -/
def isInfixCh (needle : List Char) : List Char → Bool
  | [] => (stripPrefixCh needle []).isSome
  | c :: t => (stripPrefixCh needle (c :: t)).isSome || isInfixCh needle t

/-- Fueled splitter on a nonempty separator, with Python `str.split(sep)`
semantics (leftmost, non-overlapping; empty pieces kept). -/
def splitChF (sep : List Char) : Nat → List Char → List (List Char)
  | _, [] => [[]]
  | 0, cs => [cs]
  | f + 1, c :: rest =>
    match stripPrefixCh sep (c :: rest) with
    | some rest2 => [] :: splitChF sep f rest2
    | none =>
      match splitChF sep f rest with
      | t :: ts => (c :: t) :: ts
      | [] => [[c]]

/-- Python `s.split(sep)` for a nonempty separator. -/
def pySplit (s : String) (sep : String) : List String :=
  (splitChF sep.toList (s.toList.length + 1) s.toList).map String.mk

/-- Fueled whitespace splitter, Python `str.split()` semantics
(runs of whitespace collapse, no empty pieces). -/
def wsSplitF : Nat → List Char → List (List Char)
  | _, [] => []
  | 0, cs => [cs]
  | f + 1, c :: rest =>
    if pyIsSpace c then wsSplitF f rest
    else
      let tok := (c :: rest).takeWhile (fun x => !pyIsSpace x)
      tok :: wsSplitF f ((c :: rest).drop tok.length)

/-- Python `s.split()` (split on whitespace). -/
def pyWsSplit (s : String) : List String :=
  (wsSplitF (s.toList.length + 1) s.toList).map String.mk

example : pyEq (.bool true) (.int 1) = true := rfl
example : pyStr (.list [.null, .str "a"]) = "[None, \x27a\x27]" := rfl
example : pyIntOfString " -1_2 " = some (-12) := rfl
example : pyIntOfString "x2" = none := rfl
example : pySplit "a,b,,c" "," = ["a", "b", "", "c"] := rfl
example : pySplit "abc" "," = ["abc"] := rfl
example : pyWsSplit "  a  b " = ["a", "b"] := rfl
example : asciiLower "MyBucket" = "mybucket" := rfl
example : isInfixCh "ef".toList "Default".toList = true := rfl

/-! ## Dynamic-reference sub-resolver (main.py lines 291-358, no-session mode) -/

/-- Match the dynamic-reference regex at one position: the literal
opening, a nonempty colon-free service group, a colon, a nonempty
brace-free reference group, and the double closing brace
(pattern backslash-braces `resolve:([^:]+):([^\x7d]+)` in the source). -/
def matchDynAt (cs : List Char) : Option (List Char × List Char) :=
  match stripPrefixCh "\x7b\x7bresolve:".toList cs with
  | none => none
  | some rest =>
    let svc := rest.takeWhile (fun c => c ≠ ':')
    if svc.isEmpty then none
    else
      match rest.drop svc.length with
      | c :: rest2 =>
        if c = ':' then
          let ref := rest2.takeWhile (fun x => x ≠ '\x7d')
          if ref.isEmpty then none
          else
            match rest2.drop ref.length with
            | d1 :: d2 :: _ =>
              if d1 = '\x7d' ∧ d2 = '\x7d' then some (svc, ref) else none
            | _ => none
        else none
      | [] => none

/-- Leftmost match of the dynamic-reference pattern (Python `re.search`). -/
def findDynRef : List Char → Option (List Char × List Char)
  | [] => none
  | c :: rest =>
    match matchDynAt (c :: rest) with
    | some g => some g
    | none => findDynRef rest

/-- The method `_resolve_secretsmanager` in the no-session mode: the boto
branch is skipped (`self.boto_session` is None) and the deterministic mock
derived from the colon-delimited secret id is returned. -/
def _resolve_secretsmanager (reference : String) : String :=
  let parts := pySplit reference ":"
  let secret_id := parts.headD ""
  "mock-secret-" ++ secret_id

/-- The method `_resolve_dynamic_reference`: non-strings pass through; on a
string, the first regex match is examined and only the secretsmanager
service is handled, any other service name leaves the text verbatim. -/
def _resolve_dynamic_reference (text : Node) : Node :=
  match text with
  | .str s =>
    (match findDynRef s.toList with
     | none => .str s
     | some (service, reference) =>
       if service = "secretsmanager".toList then
         .str (_resolve_secretsmanager (String.mk reference))
       else .str s)
  | other => other

/-! ## The renderer and its intrinsic handlers (main.py lines 124-487) -/

/-- The renderer state fixed for one render: the evaluation context and the
Mappings, Conditions and Resources sections of the template.  The logging
fields and boto clients of the source carry no resolution semantics in the
no-session mode and are omitted. -/
structure TemplateRenderer where
  context : List (String × Node)
  mappings : Node
  conditions : List (String × Node)
  resources : List (String × Node)

/-- The shared Conditions-table lookup used by `_handle_condition` and by
the first argument of `_handle_if`: a declared name resolves its expression,
an absent name is False. -/
def condLookup (r : TemplateRenderer) (rec : Node → Except Err Node)
    (s : String) : Except Err Node :=
  match lookupD r.conditions s with
  | some expr => rec expr
  | none => .ok (.bool false)

/-- The method `_handle_ref` (lines 281-289): context hit (with dynamic
reference re-resolution of string values), then resource mock id, then the
bracketed placeholder; unhashable keys raise from the `in` test. -/
def TemplateRenderer._handle_ref (r : TemplateRenderer) (ref_key : Node) :
    Except Err Node :=
  match ref_key with
  | .str s =>
    (match lookupD r.context s with
     | some result =>
       (match result with
        | .str rs => .ok (_resolve_dynamic_reference (.str rs))
        | _ => .ok result)
     | none =>
       if (lookupD r.resources s).isSome then
         .ok (.str ("mock-" ++ asciiLower s ++ "-id"))
       else .ok (.str ("\x7bRef: " ++ s ++ "\x7d")))
  | .list _ => .error .typeError
  | .map _ => .error .typeError
  | other => .ok (.str ("\x7bRef: " ++ pyStr other ++ "\x7d"))

/-- The chained Mappings subscript of `_handle_map` with the KeyError and
TypeError kinds caught into the default path (other kinds escalate, exactly
as the `except (KeyError, TypeError)` clause of the source). -/
def catchLookupErr (e : Err) : Except Err (Option Node) :=
  match e with
  | .keyError => .ok none
  | .typeError => .ok none
  | e => .error e

/-- Evaluate `self.mappings[m][top][sec]` under the try of `_handle_map`. -/
def tryMapLookup (mappings m top sec : Node) : Except Err (Option Node) :=
  match pyGetItem mappings m with
  | .error e => catchLookupErr e
  | .ok v1 =>
    match pyGetItem v1 top with
    | .error e => catchLookupErr e
    | .ok v2 =>
      match pyGetItem v2 sec with
      | .error e => catchLookupErr e
      | .ok v3 => .ok (some v3)

/-- The method `_handle_map` (lines 360-380): the three keys resolved in
order, the table hit itself resolved, and on a caught miss the optional
fourth argument (with its DefaultValue unwrapping) or the bracketed
diagnostic naming the map path. -/
def TemplateRenderer._handle_map (r : TemplateRenderer)
    (rec : Node → Except Err Node) (args : Node) : Except Err Node := do
  let a0 ← getIdx args 0
  let m_name ← rec a0
  let a1 ← getIdx args 1
  let top ← rec a1
  let a2 ← getIdx args 2
  let sec ← rec a2
  let found ← tryMapLookup r.mappings m_name top sec
  match found with
  | some val => rec val
  | none => do
    let len ← pyLen args
    if len > 3 then do
      let default_arg ← getIdx args 3
      match default_arg with
      | .map kvs =>
        (match lookupD kvs "DefaultValue" with
         | some dv => rec dv
         | none => rec default_arg)
      | _ => rec default_arg
    else
      .ok (.str ("\x7bError: Could not resolve Map " ++ pyStr m_name ++ "." ++
        pyStr top ++ "." ++ pyStr sec ++ "\x7d"))

/-- Match the Sub placeholder regex at one position: the literal dollar and
opening brace, one character that is not an exclamation mark, a run free of
closing braces, and the closing brace. -/
def matchPlaceholder (cs : List Char) : Option (List Char × List Char) :=
  match stripPrefixCh ['$', '\x7b'] cs with
  | none => none
  | some rest1 =>
    match rest1 with
    | [] => none
    | c0 :: rest =>
      if c0 = '!' then none
      else
        let body := rest.takeWhile (fun c => c ≠ '\x7d')
        match rest.drop body.length with
        | d :: after => if d = '\x7d' then some (c0 :: body, after) else none
        | [] => none

/-- Python `var in vars_map` as evaluated inside the Sub replacement
callback, for each node kind the raw second argument can have. -/
def pyContains (container : Node) (var : String) : Except Err Bool :=
  match container with
  | .map kvs => .ok (lookupD kvs var).isSome
  | .list xs => .ok (xs.any (fun x => pyEq (.str var) x))
  | .str s => .ok (isInfixCh var.toList s.toList)
  | _ => .error .typeError

/-- The replacement callback `repl` of `_handle_sub` (lines 386-400): local
vars entry resolved and stringified, else context entry resolved and
stringified, else resource mock id, else the original placeholder text.
Subscripting a non-mapping vars container after a successful containment
test raises TypeError, as in the source. -/
def subRepl (r : TemplateRenderer) (rec : Node → Except Err Node)
    (vars_map : Node) (var : String) : Except Err String := do
  let hit ← pyContains vars_map var
  if hit then
    match vars_map with
    | .map kvs =>
      (match lookupD kvs var with
       | some v => do
         let rv ← rec v
         .ok (pyStr rv)
       | none => .error .keyError)
    | _ => .error .typeError
  else
    match lookupD r.context var with
    | some v => do
      let rv ← rec v
      .ok (pyStr rv)
    | none =>
      if (lookupD r.resources var).isSome then
        .ok ("mock-" ++ asciiLower var ++ "-id")
      else .ok ("$\x7b" ++ var ++ "\x7d")

/-- Python `re.sub` over the Sub template text: scan left to right, replace
each placeholder match through the callback, leave other characters alone.
The fuel is one more than the character count, so it never runs out. -/
def subTextF (repl : String → Except Err String) :
    List Char → Nat → Except Err (List Char)
  | [], _ => .ok []
  | _ :: _, 0 => .error .recursionError
  | c :: rest, f + 1 =>
    match matchPlaceholder (c :: rest) with
    | some (var, after) => do
      let rep ← repl (String.mk var)
      let tail ← subTextF repl after f
      .ok (rep.toList ++ tail)
    | none => do
      let tail ← subTextF repl rest f
      .ok (c :: tail)

/-- The method `_handle_sub` (lines 382-402): a bare template string or a
list whose first two elements are the template and the local vars; the
template must be a string for `re.sub`. -/
def TemplateRenderer._handle_sub (r : TemplateRenderer)
    (rec : Node → Except Err Node) (args : Node) : Except Err Node := do
  let pair ←
    (match args with
     | .list xs => do
       let a0 ← getIdx (.list xs) 0
       let a1 ← getIdx (.list xs) 1
       pure (a0, a1)
     | other => pure (other, Node.map []))
  match pair.1 with
  | .str text => do
    let out ← subTextF (subRepl r rec pair.2) text.toList (text.toList.length + 1)
    .ok (.str (String.mk out))
  | _ => .error .typeError

/-- The method `_handle_import` (lines 404-416) with `cfn_client` None: the
deterministic mock import string. -/
def TemplateRenderer._handle_import (r : TemplateRenderer)
    (rec : Node → Except Err Node) (val : Node) : Except Err Node := do
  let import_name ← rec val
  .ok (.str ("mock-import-" ++ pyStr import_name))

/-- The method `_handle_getatt` (lines 418-423): a dotted string is split
into parts, both parts are resolved, and the lowercased mock is returned. -/
def TemplateRenderer._handle_getatt (r : TemplateRenderer)
    (rec : Node → Except Err Node) (args : Node) : Except Err Node := do
  let argsL : Node :=
    (match args with
     | .str s => .list ((pySplit s ".").map .str)
     | other => other)
  let a0 ← getIdx argsL 0
  let res ← rec a0
  let a1 ← getIdx argsL 1
  let attr ← rec a1
  .ok (.str (asciiLower ("mock-" ++ pyStr res ++ "-" ++ pyStr attr)))

/-- The method `_handle_join` (lines 425-428): the raw unresolved delimiter
must be a string (else the `.join` attribute access raises), the second
element is resolved and iterated, each item stringified and joined. -/
def TemplateRenderer._handle_join (r : TemplateRenderer)
    (rec : Node → Except Err Node) (args : Node) : Except Err Node := do
  let delimiter ← getIdx args 0
  let a1 ← getIdx args 1
  let values ← rec a1
  match delimiter with
  | .str d => do
    let items ← toIterable values
    .ok (.str (String.intercalate d (items.map pyStr)))
  | _ => .error .attributeError

/-- The method `_handle_select` (lines 430-436): the resolved index is
coerced with `int()` (which may raise), the resolved list is indexed when
in bounds, and otherwise the bracketed out-of-bounds diagnostic returned. -/
def TemplateRenderer._handle_select (r : TemplateRenderer)
    (rec : Node → Except Err Node) (args : Node) : Except Err Node := do
  let a0 ← getIdx args 0
  let rv ← rec a0
  let idx ← pyIntE rv
  let a1 ← getIdx args 1
  let lst ← rec a1
  match lst with
  | .list xs =>
    if 0 ≤ idx then
      match xs[idx.toNat]? with
      | some v => .ok v
      | none =>
        .ok (.str ("\x7bError: Select index " ++ toString idx ++
          " out of bounds\x7d"))
    else
      .ok (.str ("\x7bError: Select index " ++ toString idx ++
        " out of bounds\x7d"))
  | _ =>
    .ok (.str ("\x7bError: Select index " ++ toString idx ++ " out of bounds\x7d"))

/-- The method `_handle_split` (lines 438-442): `string.split(delim)` with
the Python corner cases (non-string subject raises AttributeError, empty
separator raises ValueError, None separator means whitespace split). -/
def TemplateRenderer._handle_split (r : TemplateRenderer)
    (rec : Node → Except Err Node) (args : Node) : Except Err Node := do
  let a0 ← getIdx args 0
  let delim ← rec a0
  let a1 ← getIdx args 1
  let stringN ← rec a1
  match stringN with
  | .str s =>
    (match delim with
     | .str d =>
       if d = "" then .error .valueError
       else .ok (.list ((pySplit s d).map .str))
     | .null => .ok (.list ((pyWsSplit s).map .str))
     | _ => .error .typeError)
  | _ => .error .attributeError

/-- The method `_handle_base64` (lines 444-446): the readable marker. -/
def TemplateRenderer._handle_base64 (r : TemplateRenderer)
    (rec : Node → Except Err Node) (val : Node) : Except Err Node := do
  let resolved ← rec val
  .ok (.str ("[Base64: " ++ pyStr resolved ++ "]"))

/-- The method `_handle_length` (lines 448-450): element count of a list,
0 for every other node kind. -/
def TemplateRenderer._handle_length (r : TemplateRenderer)
    (rec : Node → Except Err Node) (val : Node) : Except Err Node := do
  let item ← rec val
  match item with
  | .list xs => .ok (.int xs.length)
  | _ => .ok (.int 0)

/-- The method `_handle_getazs` (lines 452-456): the resolved region, or on
a falsy value the context region, suffixed with a, b and c. -/
def TemplateRenderer._handle_getazs (r : TemplateRenderer)
    (rec : Node → Except Err Node) (val : Node) : Except Err Node := do
  let region0 ← rec val
  let region ←
    (if pyTruthy region0 then pure region0
     else
       match lookupD r.context "AWS::Region" with
       | some v => pure v
       | none => .error .keyError)
  .ok (.list [.str (pyStr region ++ "a"), .str (pyStr region ++ "b"),
    .str (pyStr region ++ "c")])

/-- The method `_handle_equals` (lines 459-460). -/
def TemplateRenderer._handle_equals (r : TemplateRenderer)
    (rec : Node → Except Err Node) (args : Node) : Except Err Node := do
  let a0 ← getIdx args 0
  let l ← rec a0
  let a1 ← getIdx args 1
  let rt ← rec a1
  .ok (.bool (pyEq l rt))

/-- The method `_handle_not` (lines 462-464): singleton list or bare node. -/
def TemplateRenderer._handle_not (r : TemplateRenderer)
    (rec : Node → Except Err Node) (args : Node) : Except Err Node := do
  let condition ←
    (match args with
     | .list xs => getIdx (.list xs) 0
     | other => pure other)
  let v ← rec condition
  .ok (.bool (!pyTruthy v))

/-- Python `all(resolve(a) for a in args)`: left to right, stopping at the
first falsy operand. -/
def allTruthyM (f : Node → Except Err Node) : List Node → Except Err Bool
  | [] => .ok true
  | x :: xs => do
    let v ← f x
    if pyTruthy v then allTruthyM f xs else .ok false

/-- Python `any(resolve(a) for a in args)`: left to right, stopping at the
first truthy operand. -/
def anyTruthyM (f : Node → Except Err Node) : List Node → Except Err Bool
  | [] => .ok false
  | x :: xs => do
    let v ← f x
    if pyTruthy v then .ok true else anyTruthyM f xs

/-- The method `_handle_and` (lines 466-467). -/
def TemplateRenderer._handle_and (r : TemplateRenderer)
    (rec : Node → Except Err Node) (args : Node) : Except Err Node := do
  let items ← toIterable args
  let b ← allTruthyM rec items
  .ok (.bool b)

/-- The method `_handle_or` (lines 469-470). -/
def TemplateRenderer._handle_or (r : TemplateRenderer)
    (rec : Node → Except Err Node) (args : Node) : Except Err Node := do
  let items ← toIterable args
  let b ← anyTruthyM rec items
  .ok (.bool b)

/-- The method `_handle_condition` (lines 472-475): the shared Conditions
lookup on a hashable name, False when absent. -/
def TemplateRenderer._handle_condition (r : TemplateRenderer)
    (rec : Node → Except Err Node) (name : Node) : Except Err Node :=
  match name with
  | .str s => condLookup r rec s
  | .list _ => .error .typeError
  | .map _ => .error .typeError
  | _ => .ok (.bool false)

/-- The method `_handle_if` (lines 477-487): all three arguments fetched,
the condition name looked up (absent means False), the condition expression
resolved, and exactly the selected branch resolved and returned. -/
def TemplateRenderer._handle_if (r : TemplateRenderer)
    (rec : Node → Except Err Node) (args : Node) : Except Err Node := do
  let condition_name ← getIdx args 0
  let value_if_true ← getIdx args 1
  let value_if_false ← getIdx args 2
  let is_true ←
    (match condition_name with
     | .str s => condLookup r rec s
     | .list _ => .error .typeError
     | .map _ => .error .typeError
     | _ => pure (Node.bool false))
  if pyTruthy is_true then rec value_if_true else rec value_if_false

/-- The function-name dispatch table of `resolve` (lines 222-259), in the
order of the source's if chain. -/
def dispatchIntrinsic (r : TemplateRenderer) (rec : Node → Except Err Node)
    (key : String) (val : Node) : Except Err Node :=
  if key = "Ref" then r._handle_ref val
  else if key = "Fn::FindInMap" then r._handle_map rec val
  else if key = "Fn::Sub" then r._handle_sub rec val
  else if key = "Fn::ImportValue" then r._handle_import rec val
  else if key = "Fn::Join" then r._handle_join rec val
  else if key = "Fn::GetAtt" then r._handle_getatt rec val
  else if key = "Fn::Select" then r._handle_select rec val
  else if key = "Fn::Split" then r._handle_split rec val
  else if key = "Fn::Base64" then r._handle_base64 rec val
  else if key = "Fn::GetAZs" then r._handle_getazs rec val
  else if key = "Fn::Length" then r._handle_length rec val
  else if key = "Fn::If" then r._handle_if rec val
  else if key = "Fn::Equals" then r._handle_equals rec val
  else if key = "Fn::Not" then r._handle_not rec val
  else if key = "Fn::And" then r._handle_and rec val
  else if key = "Fn::Or" then r._handle_or rec val
  else r._handle_condition rec val

/-- The recognized function names: a single-key mapping with one of these
keys dispatches instead of resolving as a plain container. -/
def isIntrinsicKey (k : String) : Bool :=
  k = "Ref" || k = "Fn::FindInMap" || k = "Fn::Sub" || k = "Fn::ImportValue" ||
  k = "Fn::Join" || k = "Fn::GetAtt" || k = "Fn::Select" || k = "Fn::Split" ||
  k = "Fn::Base64" || k = "Fn::GetAZs" || k = "Fn::Length" || k = "Fn::If" ||
  k = "Fn::Equals" || k = "Fn::Not" || k = "Fn::And" || k = "Fn::Or" ||
  k = "Condition" || k = "Fn::Condition"

/-- Resolve the entries of a plain mapping in order, dropping entries whose
resolved value is None (lines 261-267). -/
def filterEntriesM (f : Node → Except Err Node) :
    List (String × Node) → Except Err (List (String × Node))
  | [] => .ok []
  | (k, v) :: rest => do
    let rv ← f v
    let tail ← filterEntriesM f rest
    .ok (if isNull rv then tail else (k, rv) :: tail)

/-- Resolve the elements of a sequence in order, dropping elements whose
resolved value is None (lines 269-271). -/
def filterListM (f : Node → Except Err Node) :
    List Node → Except Err (List Node)
  | [] => .ok []
  | x :: xs => do
    let rv ← f x
    let tail ← filterListM f xs
    .ok (if isNull rv then tail else rv :: tail)

/-- One unfolding of the method `resolve` (lines 215-277), with `rec` the
recursive occurrence: single-key intrinsic dispatch, plain containers with
None filtering, dynamic-reference scan on strings, pass-through scalars. -/
def resolveStep (r : TemplateRenderer) (rec : Node → Except Err Node) :
    Node → Except Err Node
  | .map [(k, v)] =>
    if isIntrinsicKey k then dispatchIntrinsic r rec k v
    else do
      let es ← filterEntriesM rec [(k, v)]
      .ok (.map es)
  | .map kvs => do
    let es ← filterEntriesM rec kvs
    .ok (.map es)
  | .list xs => do
    let ys ← filterListM rec xs
    .ok (.list ys)
  | .str s => .ok (_resolve_dynamic_reference (.str s))
  | other => .ok other

/-- The method `resolve`, fueled: fuel exhaustion models the Python
recursion limit, and each recursive call of the source consumes one unit. -/
def TemplateRenderer.resolve (r : TemplateRenderer) :
    Nat → Node → Except Err Node
  | 0, _ => .error .recursionError
  | n + 1, node => resolveStep r (r.resolve n) node

/-- The per-resource loop of `resolve_resources` (lines 195-213): resolve
each definition and keep it under its logical id unless it resolved to
None.  The two logging context fields of the source are output-only. -/
def resolveResourcesM (f : Node → Except Err Node) :
    List (String × Node) → Except Err (List (String × Node))
  | [] => .ok []
  | (logical_id, res_def) :: rest => do
    let resolved_val ← f res_def
    let tail ← resolveResourcesM f rest
    .ok (if isNull resolved_val then tail else (logical_id, resolved_val) :: tail)

/-- The method `resolve_resources`. -/
def TemplateRenderer.resolve_resources (r : TemplateRenderer) (fuel : Nat) :
    Except Err (List (String × Node)) :=
  resolveResourcesM (r.resolve fuel) r.resources

/-! ## Fixture renderer mirroring tests/test_main.py, with the behaviors the
test suite pins down re-checked against the embedding. -/

/-- The pseudo-parameter seed of the constructor (lines 147-154). -/
def pseudoSeed (region : Node) : List (String × Node) :=
  [("AWS::Region", region),
   ("AWS::AccountId", .str "123456789012"),
   ("AWS::StackName", .str "Local-Render-Stack"),
   ("AWS::Partition", .str "aws"),
   ("AWS::URLSuffix", .str "amazonaws.com"),
   ("AWS::NoValue", .null)]

/-- A renderer over the fixture template of the test suite. -/
def rFixture : TemplateRenderer where
  context := pseudoSeed (.str "us-east-1") ++ [("Env", .str "dev")]
  mappings := .map
    [("RegionMap", .map [("us-east-1", .map [("AMI", .str "ami-12345")])]),
     ("ConfigMap", .map
       [("dev", .map [("DB", .str "mysql")]),
        ("prod", .map [("DB", .str "aurora")])])]
  conditions :=
    [("IsProd", .map [("Fn::Equals", .list [.map [("Ref", .str "Env")], .str "prod"])]),
     ("IsNotProd", .map [("Fn::Not", .list [.map [("Condition", .str "IsProd")]])])]
  resources :=
    [("MyBucket", .map
      [("Type", .str "AWS::S3::Bucket"),
       ("Properties", .map [("BucketName", .map [("Ref", .str "MyBucket")])])])]

example : rFixture.resolve 6 (.map [("Ref", .str "Env")]) = .ok (.str "dev") := rfl
example : rFixture.resolve 6 (.map [("Ref", .str "AWS::Region")]) = .ok (.str "us-east-1") := rfl
example : rFixture.resolve 6 (.map [("Ref", .str "MyBucket")]) = .ok (.str "mock-mybucket-id") := rfl
example : rFixture.resolve 6 (.map [("Ref", .str "UnknownThing")]) =
    .ok (.str "\x7bRef: UnknownThing\x7d") := rfl
example : rFixture.resolve 6
    (.map [("Fn::FindInMap", .list [.str "RegionMap", .str "us-east-1", .str "AMI"])]) =
    .ok (.str "ami-12345") := rfl
example : rFixture.resolve 6
    (.map [("Fn::FindInMap", .list [.str "ConfigMap", .str "dev", .str "InvalidKey",
      .map [("DefaultValue", .int 10)]])]) = .ok (.int 10) := rfl
example : rFixture.resolve 6
    (.map [("Fn::FindInMap", .list [.str "ConfigMap", .str "dev", .str "InvalidKey",
      .int 99])]) = .ok (.int 99) := rfl
example : rFixture.resolve 6
    (.map [("Fn::FindInMap", .list [.str "ConfigMap", .str "dev", .str "Missing"])]) =
    .ok (.str "\x7bError: Could not resolve Map ConfigMap.dev.Missing\x7d") := rfl
example : rFixture.resolve 6 (.map [("Fn::Sub", .str "Region is $\x7bAWS::Region\x7d")]) =
    .ok (.str "Region is us-east-1") := rfl
example : rFixture.resolve 6
    (.map [("Fn::Sub", .list [.str "$\x7bVar\x7d", .map [("Var", .str "local")]])]) =
    .ok (.str "local") := rfl
example : rFixture.resolve 6 (.map [("Fn::Sub", .str "$\x7bMyBucket\x7d")]) =
    .ok (.str "mock-mybucket-id") := rfl
example : rFixture.resolve 6 (.map [("Fn::Sub", .str "$\x7bWhoops\x7d")]) =
    .ok (.str "$\x7bWhoops\x7d") := rfl
example : rFixture.resolve 6 (.map [("Fn::Sub", .str "$\x7b!Literal\x7d")]) =
    .ok (.str "$\x7b!Literal\x7d") := rfl
example : rFixture.resolve 6
    (.map [("Fn::Select", .list [.str "1",
      .map [("Fn::Split", .list [.str ",", .str "a,b,c"])]])]) = .ok (.str "b") := rfl
example : rFixture.resolve 6
    (.map [("Fn::Select", .list [.str "5", .list [.str "a", .str "b"]])]) =
    .ok (.str "\x7bError: Select index 5 out of bounds\x7d") := rfl
example : rFixture.resolve 6 (.map [("Fn::Length", .str "NotAList")]) = .ok (.int 0) := rfl
example : rFixture.resolve 6 (.map [("Fn::Length", .list [.str "a", .str "b"])]) =
    .ok (.int 2) := rfl
example : rFixture.resolve 6 (.map [("Fn::GetAZs", .str "eu-west-1")]) =
    .ok (.list [.str "eu-west-1a", .str "eu-west-1b", .str "eu-west-1c"]) := rfl
example : rFixture.resolve 6 (.map [("Fn::GetAZs", .str "")]) =
    .ok (.list [.str "us-east-1a", .str "us-east-1b", .str "us-east-1c"]) := rfl
example : rFixture.resolve 6 (.map [("Condition", .str "NonExistent")]) =
    .ok (.bool false) := rfl
example : rFixture.resolve 6 (.map [("Condition", .str "IsProd")]) = .ok (.bool false) := rfl
example : rFixture.resolve 6 (.map [("Condition", .str "IsNotProd")]) = .ok (.bool true) := rfl
example : rFixture.resolve 6 (.map [("Fn::Condition", .str "IsProd")]) =
    .ok (.bool false) := rfl
example : rFixture.resolve 6 (.map [("Fn::Base64", .str "UserDataScript")]) =
    .ok (.str "[Base64: UserDataScript]") := rfl
example : rFixture.resolve 6
    (.map [("Key1", .str "Value1"), ("Key2", .map [("Ref", .str "AWS::NoValue")])]) =
    .ok (.map [("Key1", .str "Value1")]) := rfl
example : rFixture.resolve 6 (.str "\x7b\x7bresolve:secretsmanager:MySecret\x7d\x7d") =
    .ok (.str "mock-secret-MySecret") := rfl
example : rFixture.resolve 6 (.str "xx\x7b\x7bresolve:ssm:Par\x7d\x7dyy") =
    .ok (.str "xx\x7b\x7bresolve:ssm:Par\x7d\x7dyy") := rfl
example : rFixture.resolve 6 (.map [("Fn::ImportValue", .str "Missing")]) =
    .ok (.str "mock-import-Missing") := rfl
example : rFixture.resolve 6 (.map [("Fn::GetAtt", .str "Res.Attr")]) =
    .ok (.str "mock-res-attr") := rfl
example : rFixture.resolve 6 (.map [("Fn::GetAtt", .list [.str "Res", .str "Attr"])]) =
    .ok (.str "mock-res-attr") := rfl
example : rFixture.resolve 6 (.map [("Fn::Join", .list [.str "-",
    .list [.str "a", .int 2, .str "c"]])]) = .ok (.str "a-2-c") := rfl
example : rFixture.resolve_resources 6 = .ok
    [("MyBucket", .map
      [("Type", .str "AWS::S3::Bucket"),
       ("Properties", .map [("BucketName", .str "mock-mybucket-id")])])] := rfl
example : rFixture.resolve 6 (.map [("Fn::Equals", .list [.str "a", .str "a"])]) =
    .ok (.bool true) := rfl
example : rFixture.resolve 6 (.map [("Fn::Or", .list [.bool false, .bool true])]) =
    .ok (.bool true) := rfl

/-! ## SAM config parsing and context assembly (main.py lines 59-90, 147-158,
491-498) -/

/-- A character matched by the override-key group `[a-zA-Z0-9-_]` of the
`parse_sam_overrides` regex. -/
def keyChar (c : Char) : Bool :=
  c.isAlpha || c.isDigit || c = '-' || c = '_'

/-- Fueled leftmost scan of the override regex
`([a-zA-Z0-9-_]+)=(quoted([^quote]*)quote|([^space-quote]+))` as `findall`
walks the string: on a failed match the scan restarts one character later,
on a success it continues after the match. -/
def scanOverridesF : Nat → List Char → List (List Char × List Char)
  | 0, _ => []
  | _ + 1, [] => []
  | f + 1, c :: rest =>
    let k := (c :: rest).takeWhile keyChar
    if k.isEmpty then scanOverridesF f rest
    else
      match (c :: rest).drop k.length with
      | '=' :: vrest =>
        (match vrest with
         | '"' :: vr2 =>
           let v := vr2.takeWhile (fun x => x ≠ '"')
           (match vr2.drop v.length with
            | '"' :: after => (k, v) :: scanOverridesF f after
            | _ => scanOverridesF f rest)
         | _ =>
           let v := vrest.takeWhile (fun x => !pyIsSpace x && x ≠ '"')
           if v.isEmpty then scanOverridesF f rest
           else (k, v) :: scanOverridesF f (vrest.drop v.length))
      | _ => scanOverridesF f rest

/-- The function `parse_sam_overrides` (lines 59-67): the matches folded
into a dict, later duplicates overwriting earlier ones. -/
def parse_sam_overrides (override_string : String) : List (String × String) :=
  let ms := scanOverridesF (override_string.toList.length + 1) override_string.toList
  ms.foldl (fun d kv => dictInsert d (String.mk kv.1) (String.mk kv.2)) []

/-- The function `load_sam_config` (lines 70-90) on a successfully parsed
config: the parsed `parameter_overrides` string, plus the `AWS::Region`
entry when the environment section carries a `region` value. -/
def load_sam_config (parameter_overrides : String) (region : Option Node) :
    List (String × Node) :=
  let config_values :=
    (parse_sam_overrides parameter_overrides).map (fun kv => (kv.1, Node.str kv.2))
  match region with
  | some rv => dictInsert config_values "AWS::Region" rv
  | none => config_values

/-- The `in` test `"Default" in p` of the constructor loop over the
Parameters section, for each node kind a declaration can have. -/
def paramDefault : Node → Except Err (Option Node)
  | .map kvs => .ok (lookupD kvs "Default")
  | .str s =>
    if isInfixCh "Default".toList s.toList then .error .typeError else .ok none
  | .list xs =>
    if xs.any (fun x => pyEq (.str "Default") x) then .error .typeError
    else .ok none
  | _ => .error .typeError

/-- The constructor loop (lines 156-158): each declared parameter with a
Default seeds the context under its name. -/
def buildContextAux :
    List (String × Node) → List (String × Node) → Except Err (List (String × Node))
  | ctx, [] => .ok ctx
  | ctx, (name, p) :: rest => do
    let d ← paramDefault p
    match d with
    | some dv => buildContextAux (dictInsert ctx name dv) rest
    | none => buildContextAux ctx rest

/-- The context as the constructor leaves it: pseudo-parameters seeded with
the region handed in, then parameter defaults. -/
def buildContext (region : Node) (parameters : List (String × Node)) :
    Except Err (List (String × Node)) :=
  buildContextAux (pseudoSeed region) parameters

/-- The context-assembly slice of `process` (lines 491-498): load the SAM
config, read the region out of it (defaulting to us-east-1), construct the
renderer context with that region, then merge the config overrides last. -/
def processContext (parameter_overrides : String) (configRegion : Option Node)
    (parameters : List (String × Node)) : Except Err (List (String × Node)) := do
  let sam_params := load_sam_config parameter_overrides configRegion
  let region := (lookupD sam_params "AWS::Region").getD (.str "us-east-1")
  let ctx ← buildContext region parameters
  .ok (dictUpdate ctx sam_params)

example : parse_sam_overrides "VpcStackName=\"vpc\" Environment=\"dev\"" =
    [("VpcStackName", "vpc"), ("Environment", "dev")] := rfl
example : parse_sam_overrides "" = [] := rfl
example : parse_sam_overrides "a=1 a=2 b=x,y" = [("a", "2"), ("b", "x,y")] := rfl
example : processContext "Env=\"prod\"" (some (.str "eu-central-1"))
    [("Env", .map [("Type", .str "String"), ("Default", .str "dev")])] =
    .ok [("AWS::Region", .str "eu-central-1"),
         ("AWS::AccountId", .str "123456789012"),
         ("AWS::StackName", .str "Local-Render-Stack"),
         ("AWS::Partition", .str "aws"),
         ("AWS::URLSuffix", .str "amazonaws.com"),
         ("AWS::NoValue", .null),
         ("Env", .str "prod")] := rfl

/-! ## Generic lemmas about the dict model -/

theorem exbind_ok {α β : Type} (a : α) (f : α → Except Err β) :
    (Except.ok a : Except Err α) >>= f = f a := rfl

theorem exbind_err {α β : Type} (e : Err) (f : α → Except Err β) :
    (Except.error e : Except Err α) >>= f = Except.error e := rfl

theorem toList_mk (l : List Char) : (String.mk l).toList = l := rfl

theorem lookupD_dictInsert_self {α : Type} (d : List (String × α)) (k : String)
    (v : α) : lookupD (dictInsert d k v) k = some v := by
  induction d with
  | nil => simp [dictInsert, lookupD]
  | cons kv rest ih =>
    obtain ⟨k0, v0⟩ := kv
    by_cases h : k0 = k
    · subst h; simp [dictInsert, lookupD]
    · simp [dictInsert, lookupD, h, ih]

theorem lookupD_dictInsert_ne {α : Type} (d : List (String × α)) (k k2 : String)
    (v : α) (h : k ≠ k2) : lookupD (dictInsert d k v) k2 = lookupD d k2 := by
  induction d with
  | nil => simp [dictInsert, lookupD, h]
  | cons kv rest ih =>
    obtain ⟨k0, v0⟩ := kv
    by_cases h0 : k0 = k
    · subst h0; simp [dictInsert, lookupD, h]
    · simp only [dictInsert, if_neg h0]
      by_cases h2 : k0 = k2
      · subst h2; simp [lookupD]
      · simp [lookupD, h2, ih]

theorem lookupD_eq_none_imp {α : Type} (d : List (String × α)) (k : String)
    (h : lookupD d k = none) : ∀ kv ∈ d, kv.1 ≠ k := by
  induction d with
  | nil => simp
  | cons kv0 rest ih =>
    obtain ⟨k0, v0⟩ := kv0
    by_cases h0 : k0 = k
    · subst h0; simp [lookupD] at h
    · intro kv hkv
      rcases List.mem_cons.mp hkv with he | hm
      · subst he; exact h0
      · exact ih (by simpa [lookupD, h0] using h) kv hm

theorem dictInsert_keys_sub {α : Type} (d : List (String × α)) (k : String)
    (v : α) : ∀ kv ∈ dictInsert d k v, kv.1 ∈ d.map Prod.fst ∨ kv.1 = k := by
  induction d with
  | nil => simp [dictInsert]
  | cons kv0 rest ih =>
    obtain ⟨k0, v0⟩ := kv0
    by_cases h0 : k0 = k
    · subst h0
      intro kv hkv
      simp only [dictInsert, if_pos rfl] at hkv
      rcases List.mem_cons.mp hkv with he | hm
      · subst he; right; rfl
      · left; simp [List.mem_map]; exact Or.inr ⟨kv.2, by simpa using hm⟩
    · intro kv hkv
      simp only [dictInsert, if_neg h0] at hkv
      rcases List.mem_cons.mp hkv with he | hm
      · subst he; left; simp
      · rcases ih kv hm with hin | he
        · left; simp at hin ⊢; tauto
        · right; exact he

theorem dictInsert_keys_nodup {α : Type} (d : List (String × α)) (k : String)
    (v : α) (h : (d.map Prod.fst).Nodup) :
    ((dictInsert d k v).map Prod.fst).Nodup := by
  induction d with
  | nil => simp [dictInsert]
  | cons kv0 rest ih =>
    obtain ⟨k0, v0⟩ := kv0
    simp only [List.map_cons, List.nodup_cons] at h
    by_cases h0 : k0 = k
    · subst h0
      simpa [dictInsert, List.nodup_cons] using h
    · simp only [dictInsert, if_neg h0, List.map_cons, List.nodup_cons]
      refine ⟨?_, ih h.2⟩
      intro hc
      rcases List.mem_map.mp hc with ⟨kv, hkv, hfst⟩
      rcases dictInsert_keys_sub rest k v kv hkv with hin | he
      · exact h.1 (hfst ▸ hin)
      · exact h0 (by rw [← hfst, he])

theorem dictUpdate_keys_nodup {α : Type} (us : List (String × α)) :
    ∀ d : List (String × α), (d.map Prod.fst).Nodup →
      ((dictUpdate d us).map Prod.fst).Nodup := by
  induction us with
  | nil => intro d h; simpa [dictUpdate] using h
  | cons kv rest ih =>
    intro d h
    simp only [dictUpdate, List.foldl_cons]
    exact ih (dictInsert d kv.1 kv.2) (dictInsert_keys_nodup d kv.1 kv.2 h)

theorem dictUpdate_keys_sub {α : Type} (us : List (String × α)) :
    ∀ d : List (String × α), ∀ kv ∈ dictUpdate d us,
      kv.1 ∈ d.map Prod.fst ∨ kv.1 ∈ us.map Prod.fst := by
  induction us with
  | nil => intro d kv h; left; simp [dictUpdate] at h; exact List.mem_map_of_mem _ h
  | cons kv0 rest ih =>
    intro d kv h
    simp only [dictUpdate, List.foldl_cons] at h
    rcases ih (dictInsert d kv0.1 kv0.2) kv h with hin | hin
    · rcases List.mem_map.mp hin with ⟨kv2, hkv2, hfst⟩
      rcases dictInsert_keys_sub d kv0.1 kv0.2 kv2 hkv2 with h2 | h2
      · left; exact hfst ▸ h2
      · right; simp [← hfst, h2]
    · right; simp [hin]

theorem dictUpdate_lookup_of_not_mem {α : Type} (us : List (String × α)) :
    ∀ d : List (String × α), ∀ k : String, (∀ kv ∈ us, kv.1 ≠ k) →
      lookupD (dictUpdate d us) k = lookupD d k := by
  induction us with
  | nil => intro d k _; rfl
  | cons kv0 rest ih =>
    intro d k h
    simp only [dictUpdate, List.foldl_cons]
    rw [show List.foldl (fun acc kv => dictInsert acc kv.1 kv.2)
        (dictInsert d kv0.1 kv0.2) rest =
        dictUpdate (dictInsert d kv0.1 kv0.2) rest from rfl]
    rw [ih (dictInsert d kv0.1 kv0.2) k (fun kv hkv => h kv (List.mem_cons_of_mem _ hkv))]
    exact lookupD_dictInsert_ne d kv0.1 k kv0.2 (h kv0 (List.mem_cons_self _ _))

theorem dictUpdate_lookup_of_mem {α : Type} (us : List (String × α)) :
    ∀ d : List (String × α), ∀ (k : String) (v : α),
      (us.map Prod.fst).Nodup → lookupD us k = some v →
      lookupD (dictUpdate d us) k = some v := by
  induction us with
  | nil => intro d k v _ h; simp [lookupD] at h
  | cons kv0 rest ih =>
    intro d k v hnd h
    obtain ⟨k0, v0⟩ := kv0
    simp only [List.map_cons, List.nodup_cons] at hnd
    simp only [dictUpdate, List.foldl_cons]
    rw [show List.foldl (fun acc kv => dictInsert acc kv.1 kv.2)
        (dictInsert d k0 v0) rest = dictUpdate (dictInsert d k0 v0) rest from rfl]
    by_cases h0 : k0 = k
    · subst h0
      rw [lookupD, if_pos rfl] at h
      injection h with hv
      subst hv
      rw [dictUpdate_lookup_of_not_mem rest (dictInsert d k0 v0) k0 ?hne]
      · exact lookupD_dictInsert_self d k0 v0
      · intro kv hkv he
        exact hnd.1 (he ▸ List.mem_map_of_mem Prod.fst hkv)
    · simp only [lookupD, if_neg h0] at h
      exact ih (dictInsert d k0 v0) k v hnd.2 h

/-! ## Lemmas about the override scanner and context assembly -/

theorem scanOverridesF_keys :
    ∀ (f : Nat) (cs : List Char), ∀ kv ∈ scanOverridesF f cs,
      ∀ c ∈ kv.1, keyChar c = true := by
  intro f
  induction f with
  | zero => intro cs kv h; simp [scanOverridesF] at h
  | succ f ih =>
    intro cs kv h
    cases cs with
    | nil => simp [scanOverridesF] at h
    | cons c0 rest =>
      simp only [scanOverridesF] at h
      split at h
      · exact ih rest kv h
      · split at h
        · split at h
          · split at h
            · rcases List.mem_cons.mp h with he | hm
              · subst he
                intro c hc
                exact List.mem_takeWhile_imp hc
              · exact ih _ kv hm
            · exact ih rest kv h
          · split at h
            · exact ih rest kv h
            · rcases List.mem_cons.mp h with he | hm
              · subst he
                intro c hc
                exact List.mem_takeWhile_imp hc
              · exact ih _ kv hm
        · exact ih rest kv h

theorem parse_sam_overrides_keys (s : String) :
    ∀ kv ∈ parse_sam_overrides s, ∀ c ∈ kv.1.toList, keyChar c = true := by
  intro kv h
  have hb : parse_sam_overrides s =
      dictUpdate []
        ((scanOverridesF (s.toList.length + 1) s.toList).map
          (fun kv0 => (String.mk kv0.1, String.mk kv0.2))) := by
    simp [parse_sam_overrides, dictUpdate, List.foldl_map]
  rw [hb] at h
  rcases dictUpdate_keys_sub _ [] kv h with hin | hin
  · simp at hin
  · rcases List.mem_map.mp hin with ⟨kv2, hkv2, hfst⟩
    rcases List.mem_map.mp hkv2 with ⟨kv0, hkv0, he⟩
    intro c hc
    have hk : kv.1 = String.mk kv0.1 := by rw [← hfst, ← he]
    rw [hk, toList_mk] at hc
    exact scanOverridesF_keys _ _ kv0 hkv0 c hc

theorem load_sam_config_keys (s : String) (reg : Option Node) :
    ∀ kv ∈ load_sam_config s reg,
      kv.1 = "AWS::Region" ∨ ∀ c ∈ kv.1.toList, keyChar c = true := by
  intro kv h
  cases reg with
  | none =>
    simp only [load_sam_config] at h
    rcases List.mem_map.mp h with ⟨kv0, hkv0, he⟩
    right
    intro c hc
    have : kv.1 = kv0.1 := by rw [← he]
    rw [this] at hc
    exact parse_sam_overrides_keys s kv0 hkv0 c hc
  | some rv =>
    simp only [load_sam_config] at h
    rcases dictInsert_keys_sub _ "AWS::Region" rv kv h with hin | he
    · rcases List.mem_map.mp hin with ⟨kv2, hkv2, hfst⟩
      rcases List.mem_map.mp hkv2 with ⟨kv0, hkv0, he2⟩
      right
      intro c hc
      have : kv.1 = kv0.1 := by rw [← hfst, ← he2]
      rw [this] at hc
      exact parse_sam_overrides_keys s kv0 hkv0 c hc
    · left; exact he

theorem load_sam_config_key_ne (s : String) (reg : Option Node) (P : String)
    (hP : ':' ∈ P.toList) (hPr : P ≠ "AWS::Region") :
    ∀ kv ∈ load_sam_config s reg, kv.1 ≠ P := by
  intro kv h he
  rcases load_sam_config_keys s reg kv h with h1 | h1
  · exact hPr (he ▸ h1)
  · have := h1 ':' (he ▸ hP)
    simp [keyChar] at this

theorem load_sam_config_keys_nodup (s : String) (reg : Option Node) :
    ((load_sam_config s reg).map Prod.fst).Nodup := by
  have hp : ((parse_sam_overrides s).map Prod.fst).Nodup := by
    have hb : parse_sam_overrides s =
        dictUpdate []
          ((scanOverridesF (s.toList.length + 1) s.toList).map
            (fun kv0 => (String.mk kv0.1, String.mk kv0.2))) := by
      simp [parse_sam_overrides, dictUpdate, List.foldl_map]
    rw [hb]
    exact dictUpdate_keys_nodup _ [] (by simp)
  have hpm : (((parse_sam_overrides s).map
      (fun kv => (kv.1, Node.str kv.2))).map Prod.fst).Nodup := by
    simpa [List.map_map, Function.comp] using hp
  cases reg with
  | none => simpa [load_sam_config] using hpm
  | some rv =>
    simp only [load_sam_config]
    exact dictInsert_keys_nodup _ "AWS::Region" rv hpm

theorem buildContextAux_lookup_preserve (P : String) :
    ∀ (params ctx ctx2 : List (String × Node)),
      (∀ kv ∈ params, kv.1 ≠ P) →
      buildContextAux ctx params = .ok ctx2 →
      lookupD ctx2 P = lookupD ctx P := by
  intro params
  induction params with
  | nil =>
    intro ctx ctx2 _ h
    simp only [buildContextAux] at h
    injection h with h2
    rw [h2]
  | cons np rest ih =>
    intro ctx ctx2 hne h
    obtain ⟨name, p⟩ := np
    simp only [buildContextAux] at h
    cases hd : paramDefault p with
    | error e =>
      rw [hd, exbind_err] at h
      exact Except.noConfusion h
    | ok d =>
      rw [hd, exbind_ok] at h
      cases d with
      | none =>
        exact ih ctx ctx2 (fun kv hkv => hne kv (List.mem_cons_of_mem _ hkv)) h
      | some dv =>
        have hrw := ih (dictInsert ctx name dv) ctx2
          (fun kv hkv => hne kv (List.mem_cons_of_mem _ hkv)) h
        rw [hrw]
        exact lookupD_dictInsert_ne ctx name P dv
          (hne (name, p) (List.mem_cons_self _ _))

/-- C5: after the merged context is built for a render, caller overrides win
over declared-parameter defaults, and the six pseudo-parameter entries keep
the values the renderer constructor seeded (overrides cannot name them: the
override-key character class has no colon, and the special AWS::Region
entry merges back exactly the region the constructor was given). -/
theorem c5_overrides_precedence_pseudo_protected
    (parameter_overrides : String) (configRegion : Option Node)
    (parameters : List (String × Node)) (ctxFinal : List (String × Node))
    (hrun : processContext parameter_overrides configRegion parameters = .ok ctxFinal)
    (hparams : ∀ kv ∈ parameters, ':' ∉ kv.1.toList) :
    (∀ (k : String) (v : Node),
      lookupD (load_sam_config parameter_overrides configRegion) k = some v →
      lookupD ctxFinal k = some v)
    ∧ lookupD ctxFinal "AWS::Region" =
        some ((lookupD (load_sam_config parameter_overrides configRegion)
          "AWS::Region").getD (.str "us-east-1"))
    ∧ lookupD ctxFinal "AWS::AccountId" = some (.str "123456789012")
    ∧ lookupD ctxFinal "AWS::StackName" = some (.str "Local-Render-Stack")
    ∧ lookupD ctxFinal "AWS::Partition" = some (.str "aws")
    ∧ lookupD ctxFinal "AWS::URLSuffix" = some (.str "amazonaws.com")
    ∧ lookupD ctxFinal "AWS::NoValue" = some Node.null := by
  simp only [processContext] at hrun
  cases hb : buildContext
      ((lookupD (load_sam_config parameter_overrides configRegion)
        "AWS::Region").getD (.str "us-east-1")) parameters with
  | error e =>
    rw [hb, exbind_err] at hrun
    exact Except.noConfusion hrun
  | ok ctx =>
    rw [hb, exbind_ok] at hrun
    injection hrun with hctx
    subst hctx
    have hparamsNe : ∀ (P : String), ':' ∈ P.toList →
        ∀ kv ∈ parameters, kv.1 ≠ P := by
      intro P hP kv hkv he
      exact hparams kv hkv (he ▸ hP)
    have hctxPre : ∀ (P : String), ':' ∈ P.toList →
        lookupD ctx P = lookupD (pseudoSeed
          ((lookupD (load_sam_config parameter_overrides configRegion)
            "AWS::Region").getD (.str "us-east-1"))) P := by
      intro P hP
      exact buildContextAux_lookup_preserve P parameters _ ctx (hparamsNe P hP) hb
    have hfive : ∀ (P : String), ':' ∈ P.toList → P ≠ "AWS::Region" →
        lookupD (dictUpdate ctx (load_sam_config parameter_overrides configRegion)) P =
        lookupD (pseudoSeed
          ((lookupD (load_sam_config parameter_overrides configRegion)
            "AWS::Region").getD (.str "us-east-1"))) P := by
      intro P hP hPr
      rw [dictUpdate_lookup_of_not_mem _ ctx P
        (load_sam_config_key_ne parameter_overrides configRegion P hP hPr)]
      exact hctxPre P hP
    refine ⟨?prec, ?region, ?acct, ?stack, ?part, ?url, ?noval⟩
    case prec =>
      intro k v hk
      exact dictUpdate_lookup_of_mem _ ctx k v
        (load_sam_config_keys_nodup parameter_overrides configRegion) hk
    case region =>
      cases hr : lookupD (load_sam_config parameter_overrides configRegion)
          "AWS::Region" with
      | some rv =>
        rw [dictUpdate_lookup_of_mem _ ctx "AWS::Region" rv
          (load_sam_config_keys_nodup parameter_overrides configRegion) hr]
        simp
      | none =>
        rw [dictUpdate_lookup_of_not_mem _ ctx "AWS::Region"
          (lookupD_eq_none_imp _ _ hr)]
        rw [hctxPre "AWS::Region" (by decide)]
        rw [hr]
        rfl
    case acct => exact (hfive "AWS::AccountId" (by decide) (by decide)).trans rfl
    case stack => exact (hfive "AWS::StackName" (by decide) (by decide)).trans rfl
    case part => exact (hfive "AWS::Partition" (by decide) (by decide)).trans rfl
    case url => exact (hfive "AWS::URLSuffix" (by decide) (by decide)).trans rfl
    case noval => exact (hfive "AWS::NoValue" (by decide) (by decide)).trans rfl

/-- The declared parameters of the C5 witness run. -/
def c5params : List (String × Node) :=
  [("Env", .map [("Type", .str "String"), ("Default", .str "dev")])]

/-- The context the C5 witness run produces. -/
def ctxC5 : List (String × Node) :=
  [("AWS::Region", .str "eu-central-1"),
   ("AWS::AccountId", .str "123456789012"),
   ("AWS::StackName", .str "Local-Render-Stack"),
   ("AWS::Partition", .str "aws"),
   ("AWS::URLSuffix", .str "amazonaws.com"),
   ("AWS::NoValue", .null),
   ("Env", .str "prod")]

/-- Witness for C5 at a concrete run: the Env override wins over the dev
default, and the pseudo-parameters keep their constructor values. -/
theorem c5_witness :
    lookupD ctxC5 "Env" = some (.str "prod") ∧
    lookupD ctxC5 "AWS::AccountId" = some (.str "123456789012") ∧
    lookupD ctxC5 "AWS::Region" = some (.str "eu-central-1") ∧
    lookupD ctxC5 "AWS::NoValue" = some Node.null := by
  have h := c5_overrides_precedence_pseudo_protected "Env=\"prod\""
    (some (.str "eu-central-1")) c5params ctxC5 rfl (by decide)
  exact ⟨h.1 "Env" (.str "prod") rfl, h.2.2.1, h.2.1.trans rfl, h.2.2.2.2.2.2⟩

/-! ## C2: Fn::If -/

/-- C2: for an Fn::If call on a string condition name, a name absent from
the Conditions table is treated as false and the false branch is resolved;
when the name is declared, the condition expression is resolved and exactly
the selected branch is resolved and returned — the conclusion never
mentions the untaken branch, which is quantified arbitrarily, so its
resolution (or failure to resolve) cannot affect the result. -/
theorem c2_if_short_circuit (r : TemplateRenderer) (n : Nat) (cn : String)
    (t f : Node) :
    (lookupD r.conditions cn = none →
      r.resolve (n + 2) (.map [("Fn::If", .list [.str cn, t, f])]) =
        r.resolve (n + 1) f)
    ∧ (∀ ce cv, lookupD r.conditions cn = some ce →
        r.resolve (n + 1) ce = .ok cv → pyTruthy cv = true →
        r.resolve (n + 2) (.map [("Fn::If", .list [.str cn, t, f])]) =
          r.resolve (n + 1) t)
    ∧ (∀ ce cv, lookupD r.conditions cn = some ce →
        r.resolve (n + 1) ce = .ok cv → pyTruthy cv = false →
        r.resolve (n + 2) (.map [("Fn::If", .list [.str cn, t, f])]) =
          r.resolve (n + 1) f) := by
  have h0 : r.resolve (n + 2) (.map [("Fn::If", .list [.str cn, t, f])]) =
      condLookup r (r.resolve (n + 1)) cn >>= (fun is_true =>
        if pyTruthy is_true then r.resolve (n + 1) t else r.resolve (n + 1) f) := rfl
  refine ⟨?absent, ?taken, ?untaken⟩
  case absent =>
    intro h
    have hcl : condLookup r (r.resolve (n + 1)) cn = .ok (.bool false) := by
      simp [condLookup, h]
    rw [h0, hcl, exbind_ok]
    rfl
  case taken =>
    intro ce cv hlook hres htr
    have hcl : condLookup r (r.resolve (n + 1)) cn = .ok cv := by
      simp [condLookup, hlook, hres]
    rw [h0, hcl, exbind_ok]
    simp [htr]
  case untaken =>
    intro ce cv hlook hres htr
    have hcl : condLookup r (r.resolve (n + 1)) cn = .ok cv := by
      simp [condLookup, hlook, hres]
    rw [h0, hcl, exbind_ok]
    simp [htr]

/-- The renderer of the C2 witness: one condition that is literally true,
no mappings, no resources. -/
def rC2 : TemplateRenderer where
  context := pseudoSeed (.str "us-east-1")
  mappings := .map []
  conditions := [("IsProd", .bool true)]
  resources := []

/-- Witness for C2: with the condition true, the call resolves to the true
branch even though the false branch names an undeclared mapping, and an
absent condition name selects the false branch. -/
theorem c2_witness :
    rC2.resolve 3 (.map [("Fn::If", .list [.str "IsProd", .str "yes",
      .map [("Fn::FindInMap", .list [.str "NoMap", .str "a", .str "b"])]])]) =
      .ok (.str "yes")
    ∧ rC2.resolve 3 (.map [("Fn::If", .list [.str "Nope", .str "yes", .str "no"])]) =
      .ok (.str "no") := by
  constructor
  · exact ((c2_if_short_circuit rC2 1 "IsProd" (.str "yes")
      (.map [("Fn::FindInMap", .list [.str "NoMap", .str "a", .str "b"])])).2.1
      (.bool true) (.bool true) rfl rfl rfl).trans rfl
  · exact ((c2_if_short_circuit rC2 1 "Nope" (.str "yes") (.str "no")).1 rfl).trans rfl

/-! ## C3: Ref -/

/-- C3: a Ref on a string name returns the context value when the name is in
the context (with dynamic-reference resolution applied when that value is a
string), else the mock identifier when the name is a declared resource
logical id, else the bracketed placeholder naming the reference — an
unknown reference never fails hard. -/
theorem c3_ref_resolution (r : TemplateRenderer) (n : Nat) (name : String) :
    (∀ s : String, lookupD r.context name = some (.str s) →
      r.resolve (n + 1) (.map [("Ref", .str name)]) =
        .ok (_resolve_dynamic_reference (.str s)))
    ∧ (∀ v : Node, lookupD r.context name = some v → isStr v = false →
        r.resolve (n + 1) (.map [("Ref", .str name)]) = .ok v)
    ∧ (lookupD r.context name = none → (lookupD r.resources name).isSome = true →
        r.resolve (n + 1) (.map [("Ref", .str name)]) =
          .ok (.str ("mock-" ++ asciiLower name ++ "-id")))
    ∧ (lookupD r.context name = none → (lookupD r.resources name).isSome = false →
        r.resolve (n + 1) (.map [("Ref", .str name)]) =
          .ok (.str ("\x7bRef: " ++ name ++ "\x7d"))) := by
  have h0 : r.resolve (n + 1) (.map [("Ref", .str name)]) =
      r._handle_ref (.str name) := rfl
  refine ⟨?ctxStr, ?ctxOther, ?mock, ?unresolved⟩
  case ctxStr =>
    intro s hl
    rw [h0]
    simp [TemplateRenderer._handle_ref, hl]
  case ctxOther =>
    intro v hl hv
    rw [h0]
    cases v <;> simp_all [TemplateRenderer._handle_ref, isStr]
  case mock =>
    intro hl hres
    rw [h0]
    simp [TemplateRenderer._handle_ref, hl, hres]
  case unresolved =>
    intro hl hres
    rw [h0]
    simp [TemplateRenderer._handle_ref, hl, hres]

/-- The renderer of the C3 witness: one context parameter and one resource. -/
def rC3 : TemplateRenderer where
  context := pseudoSeed (.str "us-east-1") ++ [("Env", .str "dev")]
  mappings := .map []
  conditions := []
  resources := [("MyBucket", .map [("Type", .str "AWS::S3::Bucket")])]

/-- Witness for C3: a context hit, a declared-resource mock, and an unknown
reference degrading to the bracketed placeholder. -/
theorem c3_witness :
    rC3.resolve 2 (.map [("Ref", .str "Env")]) = .ok (.str "dev")
    ∧ rC3.resolve 2 (.map [("Ref", .str "MyBucket")]) =
        .ok (.str "mock-mybucket-id")
    ∧ rC3.resolve 2 (.map [("Ref", .str "Missing")]) =
        .ok (.str "\x7bRef: Missing\x7d") := by
  refine ⟨?_, ?_, ?_⟩
  · exact ((c3_ref_resolution rC3 1 "Env").1 "dev" rfl).trans rfl
  · exact ((c3_ref_resolution rC3 1 "MyBucket").2.2.1 rfl rfl).trans rfl
  · exact ((c3_ref_resolution rC3 1 "Missing").2.2.2 rfl rfl).trans rfl

/-! ## C4 and C9: NoValue/None filtering in containers -/

/-- Resolve each element in order, without filtering: the reference point
against which the filtering of `resolve` is stated. -/
def mapErr (f : Node → Except Err Node) : List Node → Except Err (List Node)
  | [] => .ok []
  | x :: xs => do
    let v ← f x
    let t ← mapErr f xs
    .ok (v :: t)

/-- Resolve each entry value in order, keys kept, without filtering. -/
def mapErrKV (f : Node → Except Err Node) :
    List (String × Node) → Except Err (List (String × Node))
  | [] => .ok []
  | (k, v) :: rest => do
    let rv ← f v
    let t ← mapErrKV f rest
    .ok ((k, rv) :: t)

/-- A mapping that resolves as a plain container: not a single-key mapping
whose key is a recognized function name. -/
def isPlainMap : List (String × Node) → Bool
  | [(k, _)] => !isIntrinsicKey k
  | _ => true

theorem filterListM_char (f : Node → Except Err Node) :
    ∀ xs, filterListM f xs = (do
      let zs ← mapErr f xs
      .ok (zs.filter (fun z => !isNull z))) := by
  intro xs
  induction xs with
  | nil => rfl
  | cons x xs ih =>
    show (f x >>= fun rv => filterListM f xs >>= fun tail =>
        .ok (if isNull rv then tail else rv :: tail)) =
      ((f x >>= fun v => mapErr f xs >>= fun t => .ok (v :: t)) >>= fun zs =>
        .ok (zs.filter (fun z => !isNull z)))
    cases hf : f x with
    | error e => rw [exbind_err, exbind_err, exbind_err]
    | ok rv =>
      rw [exbind_ok, exbind_ok, ih]
      cases hm : mapErr f xs with
      | error e => simp only [exbind_err]
      | ok zs =>
        rw [exbind_ok, exbind_ok, exbind_ok, exbind_ok]
        cases hn : isNull rv <;> simp [List.filter_cons, hn]

theorem filterEntriesM_char (f : Node → Except Err Node) :
    ∀ kvs, filterEntriesM f kvs = (do
      let zs ← mapErrKV f kvs
      .ok (zs.filter (fun kv => !isNull kv.2))) := by
  intro kvs
  induction kvs with
  | nil => rfl
  | cons kv kvs ih =>
    obtain ⟨k, v⟩ := kv
    show (f v >>= fun rv => filterEntriesM f kvs >>= fun tail =>
        .ok (if isNull rv then tail else (k, rv) :: tail)) =
      ((f v >>= fun rv => mapErrKV f kvs >>= fun t => .ok ((k, rv) :: t)) >>= fun zs =>
        .ok (zs.filter (fun kv2 => !isNull kv2.2)))
    cases hf : f v with
    | error e => rw [exbind_err, exbind_err, exbind_err]
    | ok rv =>
      rw [exbind_ok, exbind_ok, ih]
      cases hm : mapErrKV f kvs with
      | error e => simp only [exbind_err]
      | ok zs =>
        rw [exbind_ok, exbind_ok, exbind_ok, exbind_ok]
        cases hn : isNull rv <;> simp [List.filter_cons, hn]

theorem resolve_list_eq (r : TemplateRenderer) (n : Nat) (xs : List Node) :
    r.resolve (n + 1) (.list xs) = (do
      let ys ← filterListM (r.resolve n) xs
      .ok (.list ys)) := rfl

theorem resolve_plain_map_eq (r : TemplateRenderer) (n : Nat)
    (kvs : List (String × Node)) (h : isPlainMap kvs = true) :
    r.resolve (n + 1) (.map kvs) = (do
      let es ← filterEntriesM (r.resolve n) kvs
      .ok (.map es)) := by
  match kvs with
  | [] => rfl
  | [(k, v)] =>
    have hk : isIntrinsicKey k = false := by
      simpa [isPlainMap] using h
    show resolveStep r (r.resolve n) (.map [(k, v)]) = _
    simp [resolveStep, hk]
  | kv1 :: kv2 :: rest => rfl

/-- C4 (amended): for every sequence node, and every mapping node that is a
plain container rather than a single-key intrinsic call, the resolved
container is exactly the pointwise resolution of its children with the
entries and elements whose resolved value is None (the NoValue sentinel
value) filtered out, order preserved — in particular no immediate child of
the result is the sentinel. -/
theorem c4_container_novalue_filtering (r : TemplateRenderer) (n : Nat) :
    (∀ (xs : List Node) (v : Node), r.resolve (n + 1) (.list xs) = .ok v →
      ∃ zs, mapErr (r.resolve n) xs = .ok zs ∧
        v = .list (zs.filter (fun z => !isNull z)))
    ∧ (∀ (kvs : List (String × Node)) (v : Node), isPlainMap kvs = true →
        r.resolve (n + 1) (.map kvs) = .ok v →
        ∃ zs, mapErrKV (r.resolve n) kvs = .ok zs ∧
          v = .map (zs.filter (fun kv => !isNull kv.2)))
    ∧ (∀ (xs : List Node) (ys : List Node),
        r.resolve (n + 1) (.list xs) = .ok (.list ys) →
        ∀ y ∈ ys, isNull y = false)
    ∧ (∀ (kvs es : List (String × Node)), isPlainMap kvs = true →
        r.resolve (n + 1) (.map kvs) = .ok (.map es) →
        ∀ kv ∈ es, isNull kv.2 = false) := by
  have hlist : ∀ (xs : List Node) (v : Node),
      r.resolve (n + 1) (.list xs) = .ok v →
      ∃ zs, mapErr (r.resolve n) xs = .ok zs ∧
        v = .list (zs.filter (fun z => !isNull z)) := by
    intro xs v h
    rw [resolve_list_eq, filterListM_char] at h
    cases hm : mapErr (r.resolve n) xs with
    | error e => rw [hm, exbind_err, exbind_err] at h; exact Except.noConfusion h
    | ok zs =>
      rw [hm, exbind_ok, exbind_ok] at h
      injection h with h2
      exact ⟨zs, rfl, h2.symm⟩
  have hmap : ∀ (kvs : List (String × Node)) (v : Node), isPlainMap kvs = true →
      r.resolve (n + 1) (.map kvs) = .ok v →
      ∃ zs, mapErrKV (r.resolve n) kvs = .ok zs ∧
        v = .map (zs.filter (fun kv => !isNull kv.2)) := by
    intro kvs v hp h
    rw [resolve_plain_map_eq r n kvs hp, filterEntriesM_char] at h
    cases hm : mapErrKV (r.resolve n) kvs with
    | error e => rw [hm, exbind_err, exbind_err] at h; exact Except.noConfusion h
    | ok zs =>
      rw [hm, exbind_ok, exbind_ok] at h
      injection h with h2
      exact ⟨zs, rfl, h2.symm⟩
  refine ⟨hlist, hmap, ?_, ?_⟩
  · intro xs ys h y hy
    obtain ⟨zs, _, h2⟩ := hlist xs (.list ys) h
    injection h2 with h3
    rw [h3] at hy
    simpa using (List.mem_filter.mp hy).2
  · intro kvs es hp h kv hkv
    obtain ⟨zs, _, h2⟩ := hmap kvs (.map es) hp h
    injection h2 with h3
    rw [h3] at hkv
    simpa using (List.mem_filter.mp hkv).2

/-- The renderer of the C4 counterexample: a parameter default that is a
mapping holding a literal None value. -/
def rC4 : TemplateRenderer where
  context := pseudoSeed (.str "us-east-1") ++ [("P", .map [("a", .null)])]
  mappings := .map []
  conditions := []
  resources := []

/-- Counterexample to C4 as stated: the mapping node consisting of the
single intrinsic call Ref P resolves to a container that does contain a
child whose value is the NoValue sentinel value, because Ref returns
context values without re-resolving or filtering them. -/
theorem c4_counterexample :
    rC4.resolve 2 (.map [("Ref", .str "P")]) = .ok (.map [("a", Node.null)]) ∧
    isNull ("a", Node.null).2 = true :=
  ⟨rfl, rfl⟩

/-- Witness for C4 (amended) at a concrete plain container. -/
theorem c4_witness :
    ∃ zs, mapErrKV (rC4.resolve 1)
        [("Keep", .str "x"), ("Drop", .map [("Ref", .str "AWS::NoValue")])] = .ok zs ∧
      Node.map (zs.filter (fun kv => !isNull kv.2)) =
        .map [("Keep", .str "x")] := by
  obtain ⟨zs, hzs, hv⟩ := (c4_container_novalue_filtering rC4 1).2.1
    [("Keep", .str "x"), ("Drop", .map [("Ref", .str "AWS::NoValue")])]
    (.map [("Keep", .str "x")]) rfl rfl
  exact ⟨zs, hzs, hv.symm⟩

theorem filterEntriesM_keys_sub (f : Node → Except Err Node) :
    ∀ (kvs out : List (String × Node)), filterEntriesM f kvs = .ok out →
      ∀ x ∈ out.map Prod.fst, x ∈ kvs.map Prod.fst := by
  intro kvs
  induction kvs with
  | nil =>
    intro out h x hx
    injection h with h2
    rw [← h2] at hx
    simp at hx
  | cons kv rest ih =>
    obtain ⟨k0, w0⟩ := kv
    intro out h x hx
    have heq : filterEntriesM f ((k0, w0) :: rest) =
        (f w0 >>= fun rv => filterEntriesM f rest >>= fun tail =>
          .ok (if isNull rv then tail else (k0, rv) :: tail)) := rfl
    rw [heq] at h
    cases hfw : f w0 with
    | error e => rw [hfw, exbind_err] at h; exact Except.noConfusion h
    | ok rv =>
      rw [hfw, exbind_ok] at h
      cases hrest : filterEntriesM f rest with
      | error e => rw [hrest, exbind_err] at h; exact Except.noConfusion h
      | ok tail =>
        rw [hrest, exbind_ok] at h
        injection h with h2
        rw [← h2] at hx
        cases hn : isNull rv with
        | true =>
          rw [hn, if_pos rfl] at hx
          exact List.mem_cons_of_mem _ (ih tail hrest x hx)
        | false =>
          rw [hn] at hx
          simp only [Bool.false_eq_true, if_false, List.map_cons, List.mem_cons] at hx
          rcases hx with he | hm
          · simp [he]
          · exact List.mem_cons_of_mem _ (ih tail hrest x hm)

theorem filterEntriesM_drops_null_key (f : Node → Except Err Node) :
    ∀ (kvs out : List (String × Node)) (k : String) (v0 : Node),
      (kvs.map Prod.fst).Nodup → (k, v0) ∈ kvs → f v0 = .ok Node.null →
      filterEntriesM f kvs = .ok out → k ∉ out.map Prod.fst := by
  intro kvs
  induction kvs with
  | nil => simp
  | cons kv rest ih =>
    obtain ⟨k0, w0⟩ := kv
    intro out k v0 hnd hmem hf hout
    simp only [List.map_cons, List.nodup_cons] at hnd
    have heq : filterEntriesM f ((k0, w0) :: rest) =
        (f w0 >>= fun rv => filterEntriesM f rest >>= fun tail =>
          .ok (if isNull rv then tail else (k0, rv) :: tail)) := rfl
    rw [heq] at hout
    cases hfw : f w0 with
    | error e => rw [hfw, exbind_err] at hout; exact Except.noConfusion hout
    | ok rv =>
      rw [hfw, exbind_ok] at hout
      cases hrest : filterEntriesM f rest with
      | error e => rw [hrest, exbind_err] at hout; exact Except.noConfusion hout
      | ok tail =>
        rw [hrest, exbind_ok] at hout
        injection hout with h2
        rcases List.mem_cons.mp hmem with he | hm
        · injection he with he1 he2
          subst he1
          subst he2
          rw [hf] at hfw
          injection hfw with h3
          subst h3
          have h4 : (if isNull Node.null then tail else (k, Node.null) :: tail) =
              tail := rfl
          rw [← h2, h4]
          intro hc
          exact hnd.1 (filterEntriesM_keys_sub f rest tail hrest k hc)
        · have hk0 : k ≠ k0 := by
            intro he2
            exact hnd.1 (he2 ▸ List.mem_map_of_mem Prod.fst hm)
          have htail := ih tail k v0 hnd.2 hm hf hrest
          rw [← h2]
          cases hn : isNull rv with
          | true => rw [if_pos rfl]; exact htail
          | false =>
            simp only [Bool.false_eq_true, if_false, List.map_cons, List.mem_cons]
            intro hc
            rcases hc with he2 | hm2
            · exact hk0 he2
            · exact htail hm2

theorem resolveResourcesM_eq_filterEntriesM (f : Node → Except Err Node) :
    ∀ l, resolveResourcesM f l = filterEntriesM f l := by
  intro l
  induction l with
  | nil => rfl
  | cons kv rest ih =>
    obtain ⟨i, d⟩ := kv
    show (f d >>= fun rv => resolveResourcesM f rest >>= fun tail =>
        .ok (if isNull rv then tail else (i, rv) :: tail)) =
      (f d >>= fun rv => filterEntriesM f rest >>= fun tail =>
        .ok (if isNull rv then tail else (i, rv) :: tail))
    rw [ih]

theorem filterListM_null_elem (f : Node → Except Err Node)
    (hf : f Node.null = .ok Node.null) :
    ∀ (a b : List Node), filterListM f (a ++ Node.null :: b) = filterListM f (a ++ b) := by
  intro a
  induction a with
  | nil =>
    intro b
    show (f Node.null >>= fun rv => filterListM f b >>= fun tail =>
        .ok (if isNull rv then tail else rv :: tail)) = filterListM f b
    rw [hf, exbind_ok]
    cases hb : filterListM f b with
    | error e => rw [exbind_err]
    | ok tail => rw [exbind_ok]; rfl
  | cons x a ih =>
    intro b
    show (f x >>= fun rv => filterListM f (a ++ Node.null :: b) >>= fun tail =>
        .ok (if isNull rv then tail else rv :: tail)) =
      (f x >>= fun rv => filterListM f (a ++ b) >>= fun tail =>
        .ok (if isNull rv then tail else rv :: tail))
    rw [ih]

/-- C9: a container child whose resolved value is None is omitted — a
literal None scalar in the template behaves exactly like the resolved
NoValue sentinel (the context binds AWS::NoValue to None, so the two are
the same value); and a resource whose whole definition resolves to None is
omitted from the resolved Resources output. -/
theorem c9_null_children_omitted (r : TemplateRenderer) (n : Nat) :
    (∀ (kvs out : List (String × Node)) (k : String), isPlainMap kvs = true →
      (kvs.map Prod.fst).Nodup → (k, Node.null) ∈ kvs →
      r.resolve (n + 2) (.map kvs) = .ok (.map out) → k ∉ out.map Prod.fst)
    ∧ (∀ a b : List Node,
        r.resolve (n + 2) (.list (a ++ Node.null :: b)) =
          r.resolve (n + 2) (.list (a ++ b)))
    ∧ (∀ (out : List (String × Node)) (id : String) (rd : Node) (fuel : Nat),
        (r.resources.map Prod.fst).Nodup → (id, rd) ∈ r.resources →
        r.resolve fuel rd = .ok Node.null →
        r.resolve_resources fuel = .ok out → id ∉ out.map Prod.fst)
    ∧ (lookupD r.context "AWS::NoValue" = some Node.null →
        r.resolve (n + 1) (.map [("Ref", .str "AWS::NoValue")]) = .ok Node.null
        ∧ r.resolve (n + 1) Node.null = .ok Node.null) := by
  refine ⟨?mapDrop, ?listDrop, ?resDrop, ?indist⟩
  case mapDrop =>
    intro kvs out k hp hnd hmem hout
    rw [resolve_plain_map_eq r (n + 1) kvs hp] at hout
    cases hes : filterEntriesM (r.resolve (n + 1)) kvs with
    | error e => rw [hes, exbind_err] at hout; exact Except.noConfusion hout
    | ok es =>
      rw [hes, exbind_ok] at hout
      injection hout with h2
      injection h2 with h3
      rw [← h3]
      exact filterEntriesM_drops_null_key (r.resolve (n + 1)) kvs es k Node.null
        hnd hmem rfl hes
  case listDrop =>
    intro a b
    rw [resolve_list_eq, resolve_list_eq,
      filterListM_null_elem (r.resolve (n + 1)) rfl a b]
  case resDrop =>
    intro out id rd fuel hnd hmem hres hout
    rw [TemplateRenderer.resolve_resources,
      resolveResourcesM_eq_filterEntriesM] at hout
    exact filterEntriesM_drops_null_key (r.resolve fuel) r.resources out id rd
      hnd hmem hres hout
  case indist =>
    intro hctx
    constructor
    · have h0 : r.resolve (n + 1) (.map [("Ref", .str "AWS::NoValue")]) =
        r._handle_ref (.str "AWS::NoValue") := rfl
      rw [h0]
      simp [TemplateRenderer._handle_ref, hctx]
    · rfl

/-- The renderer of the C9 witness: one resource that resolves to None and
one that survives. -/
def rC9 : TemplateRenderer where
  context := pseudoSeed (.str "us-east-1")
  mappings := .map []
  conditions := []
  resources := [("Gone", .map [("Ref", .str "AWS::NoValue")]), ("Stay", .str "x")]

/-- Witness for C9: the resource resolving to None is omitted from the
resolved Resources output, and a literal None element is dropped from a
sequence. -/
theorem c9_witness :
    "Gone" ∉ [("Stay", Node.str "x")].map Prod.fst
    ∧ rC9.resolve 3 (.list [.str "a", Node.null, .str "b"]) =
        .ok (.list [.str "a", .str "b"]) := by
  constructor
  · exact (c9_null_children_omitted rC9 0).2.2.1 [("Stay", .str "x")] "Gone"
      (.map [("Ref", .str "AWS::NoValue")]) 2 (by decide)
      (List.mem_cons_self _ _) rfl rfl
  · exact ((c9_null_children_omitted rC9 1).2.1 [.str "a"] [.str "b"]).trans rfl

/-! ## C7: Fn::FindInMap -/

/-- The tail of `_handle_map` after the three keys are resolved, named so
the evaluation lemmas can rewrite up to it. -/
def handleMapTail (r : TemplateRenderer) (rec : Node → Except Err Node)
    (args : Node) (m top sec : Node) : Except Err Node := do
  let found ← tryMapLookup r.mappings m top sec
  match found with
  | some val => rec val
  | none => do
    let len ← pyLen args
    if len > 3 then do
      let default_arg ← getIdx args 3
      match default_arg with
      | .map kvs =>
        (match lookupD kvs "DefaultValue" with
         | some dv => rec dv
         | none => rec default_arg)
      | _ => rec default_arg
    else
      .ok (.str ("\x7bError: Could not resolve Map " ++ pyStr m ++ "." ++
        pyStr top ++ "." ++ pyStr sec ++ "\x7d"))

/-- C7: the three FindInMap keys are resolved recursively; a table hit is
itself resolved; a caught miss uses the fourth argument when present (a
plain value directly, a one-key DefaultValue mapping through that entry),
and with only three arguments returns the bracketed diagnostic naming the
map path instead of raising. -/
theorem c7_findinmap (r : TemplateRenderer) (n : Nat) (a0 a1 a2 : Node)
    (m top sec : Node)
    (h0 : r.resolve (n + 1) a0 = .ok m)
    (h1 : r.resolve (n + 1) a1 = .ok top)
    (h2 : r.resolve (n + 1) a2 = .ok sec) :
    (∀ leaf, tryMapLookup r.mappings m top sec = .ok (some leaf) →
      r.resolve (n + 2) (.map [("Fn::FindInMap", .list [a0, a1, a2])]) =
        r.resolve (n + 1) leaf)
    ∧ (tryMapLookup r.mappings m top sec = .ok none →
        r.resolve (n + 2) (.map [("Fn::FindInMap", .list [a0, a1, a2])]) =
          .ok (.str ("\x7bError: Could not resolve Map " ++ pyStr m ++ "." ++
            pyStr top ++ "." ++ pyStr sec ++ "\x7d")))
    ∧ (∀ d : Node, tryMapLookup r.mappings m top sec = .ok none → isMap d = false →
        r.resolve (n + 2) (.map [("Fn::FindInMap", .list [a0, a1, a2, d])]) =
          r.resolve (n + 1) d)
    ∧ (∀ dv : Node, tryMapLookup r.mappings m top sec = .ok none →
        r.resolve (n + 2)
          (.map [("Fn::FindInMap", .list [a0, a1, a2,
            .map [("DefaultValue", dv)]])]) = r.resolve (n + 1) dv) := by
  have e3 : r.resolve (n + 2) (.map [("Fn::FindInMap", .list [a0, a1, a2])]) =
      (r.resolve (n + 1) a0 >>= fun mv =>
        r.resolve (n + 1) a1 >>= fun tv =>
          r.resolve (n + 1) a2 >>= fun sv =>
            handleMapTail r (r.resolve (n + 1)) (.list [a0, a1, a2]) mv tv sv) := rfl
  have e4 : ∀ d : Node,
      r.resolve (n + 2) (.map [("Fn::FindInMap", .list [a0, a1, a2, d])]) =
      (r.resolve (n + 1) a0 >>= fun mv =>
        r.resolve (n + 1) a1 >>= fun tv =>
          r.resolve (n + 1) a2 >>= fun sv =>
            handleMapTail r (r.resolve (n + 1)) (.list [a0, a1, a2, d]) mv tv sv) :=
    fun d => rfl
  refine ⟨?hit, ?miss3, ?missLit, ?missDV⟩
  case hit =>
    intro leaf hlook
    rw [e3, h0]
    simp only [exbind_ok]
    rw [h1]
    simp only [exbind_ok]
    rw [h2]
    simp only [exbind_ok]
    simp [handleMapTail, hlook, exbind_ok]
  case miss3 =>
    intro hlook
    rw [e3, h0]
    simp only [exbind_ok]
    rw [h1]
    simp only [exbind_ok]
    rw [h2]
    simp only [exbind_ok]
    simp [handleMapTail, hlook, exbind_ok, pyLen]
  case missLit =>
    intro d hlook hd
    rw [e4 d, h0]
    simp only [exbind_ok]
    rw [h1]
    simp only [exbind_ok]
    rw [h2]
    simp only [exbind_ok]
    cases d <;> simp_all [handleMapTail, isMap, hlook, exbind_ok, pyLen, getIdx]
  case missDV =>
    intro dv hlook
    rw [e4 (.map [("DefaultValue", dv)]), h0]
    simp only [exbind_ok]
    rw [h1]
    simp only [exbind_ok]
    rw [h2]
    simp only [exbind_ok]
    simp [handleMapTail, hlook, lookupD, exbind_ok, pyLen, getIdx]

/-- The renderer of the C7 witness: one two-level map with a scalar leaf. -/
def rC7 : TemplateRenderer where
  context := pseudoSeed (.str "us-east-1")
  mappings := .map [("RegionMap", .map [("us-east-1", .map [("AMI", .str "ami-12345")])])]
  conditions := []
  resources := []

/-- Witness for C7: a hit returning the resolved leaf, a miss with a
literal default, a miss with a DefaultValue mapping, and a bare miss
returning the diagnostic naming the map path. -/
theorem c7_witness :
    rC7.resolve 3 (.map [("Fn::FindInMap",
      .list [.str "RegionMap", .str "us-east-1", .str "AMI"])]) =
      .ok (.str "ami-12345")
    ∧ rC7.resolve 3 (.map [("Fn::FindInMap",
        .list [.str "RegionMap", .str "eu-west-1", .str "AMI", .int 99])]) =
      .ok (.int 99)
    ∧ rC7.resolve 3 (.map [("Fn::FindInMap",
        .list [.str "RegionMap", .str "eu-west-1", .str "AMI",
          .map [("DefaultValue", .str "fallback")]])]) = .ok (.str "fallback")
    ∧ rC7.resolve 3 (.map [("Fn::FindInMap",
        .list [.str "RegionMap", .str "eu-west-1", .str "AMI"])]) =
      .ok (.str "\x7bError: Could not resolve Map RegionMap.eu-west-1.AMI\x7d") := by
  refine ⟨?_, ?_, ?_, ?_⟩
  · exact ((c7_findinmap rC7 1 (.str "RegionMap") (.str "us-east-1") (.str "AMI")
      (.str "RegionMap") (.str "us-east-1") (.str "AMI") rfl rfl rfl).1
      (.str "ami-12345") rfl).trans rfl
  · exact ((c7_findinmap rC7 1 (.str "RegionMap") (.str "eu-west-1") (.str "AMI")
      (.str "RegionMap") (.str "eu-west-1") (.str "AMI") rfl rfl rfl).2.2.1
      (.int 99) rfl rfl).trans rfl
  · exact ((c7_findinmap rC7 1 (.str "RegionMap") (.str "eu-west-1") (.str "AMI")
      (.str "RegionMap") (.str "eu-west-1") (.str "AMI") rfl rfl rfl).2.2.2
      (.str "fallback") rfl).trans rfl
  · exact ((c7_findinmap rC7 1 (.str "RegionMap") (.str "eu-west-1") (.str "AMI")
      (.str "RegionMap") (.str "eu-west-1") (.str "AMI") rfl rfl rfl).2.1 rfl).trans rfl

/-! ## C8: determinism of the mock fallbacks -/

/-- C8: in the no-session configuration the embedded resolver is a pure
function of the renderer state, fuel and node, so two runs on the same
inputs coincide definitionally; and the mock strings are the deterministic
derived forms — the lowercased logical id for Ref, the lowercased
resource-attribute pair for Fn::GetAtt (given attribute strings free of
dynamic-reference syntax, which resolve to themselves first). -/
theorem c8_deterministic_mocks (r : TemplateRenderer) (n : Nat) :
    (∀ (fuel : Nat) (node : Node), r.resolve fuel node = r.resolve fuel node)
    ∧ (∀ name : String, lookupD r.context name = none →
        (lookupD r.resources name).isSome = true →
        r.resolve (n + 1) (.map [("Ref", .str name)]) =
          .ok (.str ("mock-" ++ asciiLower name ++ "-id")))
    ∧ (∀ a b : String, findDynRef a.toList = none → findDynRef b.toList = none →
        r.resolve (n + 2) (.map [("Fn::GetAtt", .list [.str a, .str b])]) =
          .ok (.str (asciiLower ("mock-" ++ a ++ "-" ++ b)))) := by
  refine ⟨fun _ _ => rfl, ?refMock, ?getattMock⟩
  case refMock =>
    intro name hl hres
    have e : r.resolve (n + 1) (.map [("Ref", .str name)]) =
        r._handle_ref (.str name) := rfl
    rw [e]
    simp [TemplateRenderer._handle_ref, hl, hres]
  case getattMock =>
    intro a b hA hB
    have e : r.resolve (n + 2) (.map [("Fn::GetAtt", .list [.str a, .str b])]) =
        .ok (.str (asciiLower ("mock-" ++
          pyStr (_resolve_dynamic_reference (.str a)) ++ "-" ++
          pyStr (_resolve_dynamic_reference (.str b))))) := rfl
    rw [e]
    have hA2 : findDynRef a.data = none := hA
    have hB2 : findDynRef b.data = none := hB
    simp [_resolve_dynamic_reference, hA2, hB2, pyStr]

/-- The renderer of the C8 witness: one declared resource. -/
def rC8 : TemplateRenderer where
  context := pseudoSeed (.str "us-east-1")
  mappings := .map []
  conditions := []
  resources := [("MyFn", .map [("Type", .str "AWS::Serverless::Function")])]

/-- Witness for C8: the concrete mock strings for a declared logical id. -/
theorem c8_witness :
    rC8.resolve 2 (.map [("Ref", .str "MyFn")]) = .ok (.str "mock-myfn-id")
    ∧ rC8.resolve 3 (.map [("Fn::GetAtt", .list [.str "MyFn", .str "Arn"])]) =
        .ok (.str "mock-myfn-arn") := by
  constructor
  · exact ((c8_deterministic_mocks rC8 1).2.1 "MyFn" rfl rfl).trans rfl
  · exact ((c8_deterministic_mocks rC8 1).2.2 "MyFn" "Arn" rfl rfl).trans rfl

/-! ## C1: diagnostic strings versus raised exceptions -/

/-- The tail of `_handle_select` after index coercion and list resolution. -/
def handleSelectTail (idx : Int) (lst : Node) : Except Err Node :=
  match lst with
  | .list xs =>
    if 0 ≤ idx then
      match xs[idx.toNat]? with
      | some v => .ok v
      | none =>
        .ok (.str ("\x7bError: Select index " ++ toString idx ++
          " out of bounds\x7d"))
    else
      .ok (.str ("\x7bError: Select index " ++ toString idx ++
        " out of bounds\x7d"))
  | _ =>
    .ok (.str ("\x7bError: Select index " ++ toString idx ++ " out of bounds\x7d"))

/-- The tail of `_handle_join` after the list operand is resolved. -/
def handleJoinTail (delimiter values : Node) : Except Err Node :=
  match delimiter with
  | .str d => do
    let items ← toIterable values
    .ok (.str (String.intercalate d (items.map pyStr)))
  | _ => .error .attributeError

/-- The renderer of the C1 counterexample and witness. -/
def rC1 : TemplateRenderer where
  context := pseudoSeed (.str "us-east-1")
  mappings := .map []
  conditions := []
  resources := []

/-- Counterexample to C1 as stated: an Fn::Select whose index argument does
not coerce to an integer makes resolution raise (the modelled ValueError of
the `int()` call) instead of returning a bracketed diagnostic string — a
template-content problem escalates to the caller. -/
theorem c1_counterexample :
    rC1.resolve 2 (.map [("Fn::Select", .list [.str "NotANumber", .list []])]) =
      .error .valueError := rfl

/-- C1 (amended): the cited handlers return bracketed diagnostics for
semantically unresolvable lookups — an in-range Select returns the element,
an out-of-range or non-list Select returns the bracketed out-of-bounds
string, a well-formed Join returns the joined string — but structurally
malformed arguments raise: a non-integer-coercible Select index propagates
the coercion exception, and a non-string Join delimiter raises the
AttributeError of the `.join` access. -/
theorem c1_select_join_diagnostics (r : TemplateRenderer) (n : Nat) :
    (∀ (a b av : Node) (i : Int) (xs : List Node) (x : Node),
      r.resolve (n + 1) a = .ok av → pyIntE av = .ok i →
      r.resolve (n + 1) b = .ok (.list xs) → 0 ≤ i → xs[i.toNat]? = some x →
      r.resolve (n + 2) (.map [("Fn::Select", .list [a, b])]) = .ok x)
    ∧ (∀ (a b av : Node) (i : Int) (xs : List Node),
        r.resolve (n + 1) a = .ok av → pyIntE av = .ok i →
        r.resolve (n + 1) b = .ok (.list xs) → 0 ≤ i → xs[i.toNat]? = none →
        r.resolve (n + 2) (.map [("Fn::Select", .list [a, b])]) =
          .ok (.str ("\x7bError: Select index " ++ toString i ++
            " out of bounds\x7d")))
    ∧ (∀ (a b av bv : Node) (i : Int),
        r.resolve (n + 1) a = .ok av → pyIntE av = .ok i →
        r.resolve (n + 1) b = .ok bv → isList bv = false →
        r.resolve (n + 2) (.map [("Fn::Select", .list [a, b])]) =
          .ok (.str ("\x7bError: Select index " ++ toString i ++
            " out of bounds\x7d")))
    ∧ (∀ (a av : Node) (b : Node) (ek : Err),
        r.resolve (n + 1) a = .ok av → pyIntE av = .error ek →
        r.resolve (n + 2) (.map [("Fn::Select", .list [a, b])]) = .error ek)
    ∧ (∀ (d : String) (lv : Node) (vs : List Node),
        r.resolve (n + 1) lv = .ok (.list vs) →
        r.resolve (n + 2) (.map [("Fn::Join", .list [.str d, lv])]) =
          .ok (.str (String.intercalate d (vs.map pyStr))))
    ∧ (∀ (dn lv bv : Node),
        isStr dn = false → r.resolve (n + 1) lv = .ok bv →
        r.resolve (n + 2) (.map [("Fn::Join", .list [dn, lv])]) =
          .error .attributeError) := by
  have eSel : ∀ a b : Node,
      r.resolve (n + 2) (.map [("Fn::Select", .list [a, b])]) =
      (r.resolve (n + 1) a >>= fun rv =>
        pyIntE rv >>= fun idx =>
          r.resolve (n + 1) b >>= fun lst => handleSelectTail idx lst) :=
    fun a b => rfl
  have eJoin : ∀ dn lv : Node,
      r.resolve (n + 2) (.map [("Fn::Join", .list [dn, lv])]) =
      (r.resolve (n + 1) lv >>= fun values => handleJoinTail dn values) :=
    fun dn lv => rfl
  refine ⟨?selIn, ?selOut, ?selNonList, ?selBadIdx, ?joinOk, ?joinBadDelim⟩
  case selIn =>
    intro a b av i xs x ha hi hb h0 hx
    rw [eSel, ha]
    simp only [exbind_ok]
    rw [hi]
    simp only [exbind_ok]
    rw [hb]
    simp only [exbind_ok]
    simp [handleSelectTail, h0, hx]
  case selOut =>
    intro a b av i xs ha hi hb h0 hx
    rw [eSel, ha]
    simp only [exbind_ok]
    rw [hi]
    simp only [exbind_ok]
    rw [hb]
    simp only [exbind_ok]
    simp [handleSelectTail, h0, hx]
  case selNonList =>
    intro a b av bv i ha hi hb hl
    rw [eSel, ha]
    simp only [exbind_ok]
    rw [hi]
    simp only [exbind_ok]
    rw [hb]
    simp only [exbind_ok]
    cases bv <;> simp_all [handleSelectTail, isList]
  case selBadIdx =>
    intro a av b ek ha hi
    rw [eSel, ha]
    simp only [exbind_ok]
    rw [hi]
    simp only [exbind_err]
  case joinOk =>
    intro d lv vs hlv
    rw [eJoin, hlv]
    simp only [exbind_ok]
    simp [handleJoinTail, toIterable, exbind_ok]
  case joinBadDelim =>
    intro dn lv bv hd hlv
    rw [eJoin, hlv]
    simp only [exbind_ok]
    cases dn <;> simp_all [handleJoinTail, isStr]

/-- Witness for C1 (amended): the out-of-bounds diagnostic, a successful
join, and the raising behaviors at concrete inputs. -/
theorem c1_witness :
    rC1.resolve 3 (.map [("Fn::Select", .list [.str "5",
      .list [.str "a", .str "b"]])]) =
      .ok (.str "\x7bError: Select index 5 out of bounds\x7d")
    ∧ rC1.resolve 3 (.map [("Fn::Join", .list [.str "-",
        .list [.str "a", .str "b"]])]) = .ok (.str "a-b")
    ∧ rC1.resolve 3 (.map [("Fn::Select", .list [.str "x", .list []])]) =
        .error .valueError
    ∧ rC1.resolve 3 (.map [("Fn::Join", .list [.int 0, .list []])]) =
        .error .attributeError := by
  refine ⟨?_, ?_, ?_, ?_⟩
  · exact ((c1_select_join_diagnostics rC1 1).2.1 (.str "5")
      (.list [.str "a", .str "b"]) (.str "5") 5 [.str "a", .str "b"]
      rfl rfl rfl (by decide) rfl).trans rfl
  · exact ((c1_select_join_diagnostics rC1 1).2.2.2.2.1 "-"
      (.list [.str "a", .str "b"]) [.str "a", .str "b"] rfl).trans rfl
  · exact (c1_select_join_diagnostics rC1 1).2.2.2.1 (.str "x") (.str "x")
      (.list []) .valueError rfl rfl
  · exact (c1_select_join_diagnostics rC1 1).2.2.2.2.2 (.int 0) (.list [])
      (.list []) rfl rfl

/-! ## C10: dynamic references in scalar strings -/

theorem takeWhile_all {p : Char → Bool} :
    ∀ l : List Char, (∀ x ∈ l, p x = true) → l.takeWhile p = l := by
  intro l
  induction l with
  | nil => intro _; rfl
  | cons c rest ih =>
    intro h
    rw [List.takeWhile_cons, if_pos (h c (List.mem_cons_self _ _))]
    rw [ih (fun x hx => h x (List.mem_cons_of_mem _ hx))]

theorem takeWhile_append_stop {p : Char → Bool} (l : List Char) (c : Char)
    (t : List Char) (hl : ∀ x ∈ l, p x = true) (hc : p c = false) :
    (l ++ c :: t).takeWhile p = l := by
  rw [List.takeWhile_append, takeWhile_all l hl, if_pos rfl,
    List.takeWhile_cons, hc]
  simp

theorem stripPrefixCh_append : ∀ p t : List Char, stripPrefixCh p (p ++ t) = some t := by
  intro p
  induction p with
  | nil => intro t; rfl
  | cons c rest ih => intro t; simp [stripPrefixCh, ih]

theorem matchDynAt_cons_ne (c : Char) (cs : List Char) (h : c ≠ '\x7b') :
    matchDynAt (c :: cs) = none := by
  have e : stripPrefixCh "\x7b\x7bresolve:".toList (c :: cs) = none := by
    show (if '\x7b' = c then stripPrefixCh "\x7bresolve:".toList cs else none) = none
    exact if_neg (fun he => h he.symm)
  simp only [matchDynAt, e]

theorem findDynRef_cons_ne (c : Char) (cs : List Char) (h : c ≠ '\x7b') :
    findDynRef (c :: cs) = findDynRef cs := by
  simp [findDynRef, matchDynAt_cons_ne c cs h]

theorem findDynRef_skip (pre : List Char) (hp : ∀ c ∈ pre, c ≠ '\x7b') :
    ∀ rest, findDynRef (pre ++ rest) = findDynRef rest := by
  induction pre with
  | nil => intro rest; rfl
  | cons c pre2 ih =>
    intro rest
    rw [List.cons_append, findDynRef_cons_ne c _ (hp c (List.mem_cons_self _ _))]
    exact ih (fun x hx => hp x (List.mem_cons_of_mem _ hx)) rest

theorem findDynRef_at_match (cs : List Char) (g : List Char × List Char)
    (hne : cs ≠ []) (hm : matchDynAt cs = some g) : findDynRef cs = some g := by
  cases cs with
  | nil => exact absurd rfl hne
  | cons c rest => simp [findDynRef, hm]

theorem matchDynAt_full (svc ref post : List Char) (hs : svc ≠ [])
    (hsc : ∀ c ∈ svc, c ≠ ':') (hr : ref ≠ []) (hrc : ∀ c ∈ ref, c ≠ '\x7d') :
    matchDynAt ("\x7b\x7bresolve:".toList ++
      (svc ++ ':' :: (ref ++ '\x7d' :: '\x7d' :: post))) = some (svc, ref) := by
  have hsvcP : ∀ x ∈ svc, (fun c => decide ¬(c = ':')) x = true := by
    intro x hx
    simpa using hsc x hx
  have hrefP : ∀ x ∈ ref, (fun c => decide ¬(c = '\x7d')) x = true := by
    intro x hx
    simpa using hrc x hx
  have htakeS : (svc ++ ':' :: (ref ++ '\x7d' :: '\x7d' :: post)).takeWhile
      (fun c => decide ¬(c = ':')) = svc :=
    takeWhile_append_stop svc ':' _ hsvcP (by decide)
  have htakeR : (ref ++ '\x7d' :: '\x7d' :: post).takeWhile
      (fun c => decide ¬(c = '\x7d')) = ref :=
    takeWhile_append_stop ref '\x7d' _ hrefP (by decide)
  have hempS : svc.isEmpty = false := by
    cases svc with
    | nil => exact absurd rfl hs
    | cons a l => rfl
  have hempR : ref.isEmpty = false := by
    cases ref with
    | nil => exact absurd rfl hr
    | cons a l => rfl
  simp only [matchDynAt, stripPrefixCh_append]
  rw [htakeS, hempS]
  rw [show (svc ++ ':' :: (ref ++ '\x7d' :: '\x7d' :: post)).drop svc.length =
    ':' :: (ref ++ '\x7d' :: '\x7d' :: post) from List.drop_left svc _]
  simp only [if_pos rfl, Bool.false_eq_true, reduceIte]
  rw [htakeR, hempR]
  rw [show (ref ++ '\x7d' :: '\x7d' :: post).drop ref.length =
    '\x7d' :: '\x7d' :: post from List.drop_left ref _]
  simp

theorem splitChF_ne_nil (sep : List Char) : ∀ (f : Nat) (cs : List Char),
    splitChF sep f cs ≠ [] := by
  intro f cs
  cases f with
  | zero => cases cs <;> simp [splitChF]
  | succ f =>
    cases cs with
    | nil => simp [splitChF]
    | cons c rest =>
      simp only [splitChF]
      split
      · simp
      · split <;> simp

theorem splitChF_head (f : Nat) : ∀ cs : List Char, cs.length < f →
    (splitChF [':'] f cs).headD [] = cs.takeWhile (fun c => decide ¬(c = ':')) := by
  induction f with
  | zero => intro cs h; exact absurd h (by omega)
  | succ f ih =>
    intro cs h
    cases cs with
    | nil => rfl
    | cons c rest =>
      by_cases hc : ':' = c
      · subst hc
        have e : stripPrefixCh [':'] (':' :: rest) = some rest := by
          simp [stripPrefixCh]
        simp [splitChF, e, List.takeWhile_cons]
      · have e : stripPrefixCh [':'] (c :: rest) = none := by
          simp [stripPrefixCh, hc]
        obtain ⟨t, ts, hsp⟩ : ∃ t ts, splitChF [':'] f rest = t :: ts := by
          cases hq : splitChF [':'] f rest with
          | nil => exact absurd hq (splitChF_ne_nil [':'] f rest)
          | cons t ts => exact ⟨t, ts, rfl⟩
        have hlen : rest.length < f := by
          simp only [List.length_cons] at h
          omega
        have hihr := ih rest hlen
        rw [hsp] at hihr
        simp only [List.headD_cons] at hihr
        have hpc : (fun c => decide ¬(c = ':')) c = true := by
          simp
          exact fun he => hc he.symm
        simp only [splitChF, e, hsp, List.headD_cons]
        rw [List.takeWhile_cons, if_pos hpc, hihr]

theorem resolve_secretsmanager_head (ref : List Char) (hr : ref ≠ []) :
    _resolve_secretsmanager (String.mk ref) =
      "mock-secret-" ++ String.mk (ref.takeWhile (fun c => decide ¬(c = ':'))) := by
  simp only [_resolve_secretsmanager, pySplit, toList_mk]
  rw [show (":".toList : List Char) = [':'] from rfl]
  obtain ⟨t, ts, hsp⟩ : ∃ t ts, splitChF [':'] (ref.length + 1) ref = t :: ts := by
    cases hq : splitChF [':'] (ref.length + 1) ref with
    | nil => exact absurd hq (splitChF_ne_nil [':'] _ ref)
    | cons t ts => exact ⟨t, ts, rfl⟩
  have hh := splitChF_head (ref.length + 1) ref (by omega)
  rw [hsp] at hh
  simp only [List.headD_cons] at hh
  rw [hsp]
  simp only [List.map_cons, List.headD_cons]
  rw [hh]

/-- C10: a scalar string embedding the dynamic-reference pattern between
arbitrary surrounding text (the prefix free of opening braces, so the shown
occurrence is the leftmost match) resolves, for the secretsmanager service,
to just the mock secret derived from the colon-delimited secret id — the
surrounding text is discarded rather than substituted in place, and
whatever follows the first match, including further patterns, is ignored;
for any other service name the whole string is returned verbatim. -/
theorem c10_dynamic_reference_extraction (r : TemplateRenderer) (n : Nat)
    (pre svc ref post : List Char)
    (hpre : ∀ c ∈ pre, c ≠ '\x7b') (hs : svc ≠ [])
    (hsc : ∀ c ∈ svc, c ≠ ':') (hr : ref ≠ [])
    (hrc : ∀ c ∈ ref, c ≠ '\x7d') :
    (svc = "secretsmanager".toList →
      r.resolve (n + 1) (.str (String.mk (pre ++ ("\x7b\x7bresolve:".toList ++
          (svc ++ ':' :: (ref ++ '\x7d' :: '\x7d' :: post)))))) =
        .ok (.str ("mock-secret-" ++
          String.mk (ref.takeWhile (fun c => decide ¬(c = ':'))))))
    ∧ (svc ≠ "secretsmanager".toList →
        r.resolve (n + 1) (.str (String.mk (pre ++ ("\x7b\x7bresolve:".toList ++
            (svc ++ ':' :: (ref ++ '\x7d' :: '\x7d' :: post)))))) =
          .ok (.str (String.mk (pre ++ ("\x7b\x7bresolve:".toList ++
            (svc ++ ':' :: (ref ++ '\x7d' :: '\x7d' :: post))))))) := by
  have hfind : findDynRef (pre ++ ("\x7b\x7bresolve:".toList ++
      (svc ++ ':' :: (ref ++ '\x7d' :: '\x7d' :: post)))) = some (svc, ref) := by
    rw [findDynRef_skip pre hpre]
    exact findDynRef_at_match _ (svc, ref) (by simp)
      (matchDynAt_full svc ref post hs hsc hr hrc)
  have e : r.resolve (n + 1) (.str (String.mk (pre ++ ("\x7b\x7bresolve:".toList ++
      (svc ++ ':' :: (ref ++ '\x7d' :: '\x7d' :: post)))))) =
      .ok (_resolve_dynamic_reference (.str (String.mk (pre ++
        ("\x7b\x7bresolve:".toList ++
          (svc ++ ':' :: (ref ++ '\x7d' :: '\x7d' :: post))))))) := rfl
  have hfind2 : findDynRef (String.mk (pre ++ ("\x7b\x7bresolve:".toList ++
      (svc ++ ':' :: (ref ++ '\x7d' :: '\x7d' :: post))))).toList =
      some (svc, ref) := by
    rw [toList_mk]
    exact hfind
  constructor
  · intro hsvc
    subst hsvc
    rw [e]
    simp only [_resolve_dynamic_reference, hfind2, if_pos rfl]
    rw [resolve_secretsmanager_head ref hr]
    simp
  · intro hsvc
    rw [e]
    simp only [_resolve_dynamic_reference, hfind2, if_neg hsvc]

/-- Witness for C10 at concrete strings: a secretsmanager reference with a
json key and surrounding text collapses to the mock secret alone, and an
unsupported service is returned verbatim with its surroundings. -/
theorem c10_witness :
    rFixture.resolve 1
      (.str "A-\x7b\x7bresolve:secretsmanager:MySecret:Key\x7d\x7d-B") =
      .ok (.str "mock-secret-MySecret")
    ∧ rFixture.resolve 1 (.str "A-\x7b\x7bresolve:ssm:Par\x7d\x7d-B") =
      .ok (.str "A-\x7b\x7bresolve:ssm:Par\x7d\x7d-B") := by
  constructor
  · exact ((c10_dynamic_reference_extraction rFixture 0 "A-".toList
      "secretsmanager".toList "MySecret:Key".toList "-B".toList
      (by decide) (by decide) (by decide) (by decide) (by decide)).1 rfl).trans rfl
  · exact ((c10_dynamic_reference_extraction rFixture 0 "A-".toList
      "ssm".toList "Par".toList "-B".toList
      (by decide) (by decide) (by decide) (by decide) (by decide)).2
      (by decide)).trans rfl

/-! ## C6: Fn::Sub substitution -/

theorem subTextF_nil (repl : String → Except Err String) (f : Nat) :
    subTextF repl [] f = .ok [] := by
  cases f <;> rfl

theorem matchPlaceholder_cons_ne (c : Char) (cs : List Char) (h : c ≠ '$') :
    matchPlaceholder (c :: cs) = none := by
  have e : stripPrefixCh ['$', '\x7b'] (c :: cs) = none := by
    show (if '$' = c then stripPrefixCh ['\x7b'] cs else none) = none
    exact if_neg (fun he => h he.symm)
  simp only [matchPlaceholder, e]

theorem matchPlaceholder_escape (r : List Char) :
    matchPlaceholder ('$' :: '\x7b' :: '!' :: r) = none := rfl

theorem matchPlaceholder_full (c0 : Char) (body after : List Char)
    (h0 : c0 ≠ '!') (hbody : ∀ c ∈ body, c ≠ '\x7d') :
    matchPlaceholder ('$' :: '\x7b' :: c0 :: (body ++ '\x7d' :: after)) =
      some (c0 :: body, after) := by
  have hbodyP : ∀ x ∈ body, (fun c => decide ¬(c = '\x7d')) x = true := by
    intro x hx
    simpa using hbody x hx
  have htake : (body ++ '\x7d' :: after).takeWhile
      (fun c => decide ¬(c = '\x7d')) = body :=
    takeWhile_append_stop body '\x7d' _ hbodyP (by decide)
  have e : stripPrefixCh ['$', '\x7b'] ('$' :: '\x7b' :: c0 :: (body ++ '\x7d' :: after)) =
      some (c0 :: (body ++ '\x7d' :: after)) := rfl
  simp only [matchPlaceholder, e, if_neg h0]
  rw [htake]
  rw [show (body ++ '\x7d' :: after).drop body.length = '\x7d' :: after from
    List.drop_left body _]
  simp

theorem subTextF_cons_nomatch (repl : String → Except Err String) (c : Char)
    (rest : List Char) (f : Nat) (h : matchPlaceholder (c :: rest) = none) :
    subTextF repl (c :: rest) (f + 1) =
      (subTextF repl rest f >>= fun tail => .ok (c :: tail)) := by
  simp only [subTextF, h]

theorem subTextF_placeholder (repl : String → Except Err String) (c0 : Char)
    (body after : List Char) (f : Nat) (h0 : c0 ≠ '!')
    (hbody : ∀ c ∈ body, c ≠ '\x7d') :
    subTextF repl ('$' :: '\x7b' :: c0 :: (body ++ '\x7d' :: after)) (f + 1) =
      (repl (String.mk (c0 :: body)) >>= fun rep =>
        subTextF repl after f >>= fun tail => .ok (rep.toList ++ tail)) := by
  simp only [subTextF, matchPlaceholder_full c0 body after h0 hbody]

theorem subTextF_noDollar (repl : String → Except Err String) :
    ∀ (pre : List Char), (∀ c ∈ pre, c ≠ '$') →
      ∀ (rest : List Char) (g : Nat),
        subTextF repl (pre ++ rest) (pre.length + g) =
          (subTextF repl rest g >>= fun t => .ok (pre ++ t)) := by
  intro pre
  induction pre with
  | nil =>
    intro _ rest g
    simp only [List.nil_append, List.length_nil, Nat.zero_add]
    cases h : subTextF repl rest g with
    | error e => rw [exbind_err]
    | ok t => rw [exbind_ok]
  | cons c pre2 ih =>
    intro hp rest g
    have harith : (c :: pre2).length + g = (pre2.length + g) + 1 := by
      simp only [List.length_cons]
      omega
    rw [harith, List.cons_append,
      subTextF_cons_nomatch repl c (pre2 ++ rest) (pre2.length + g)
        (matchPlaceholder_cons_ne c _ (hp c (List.mem_cons_self _ _))),
      ih (fun x hx => hp x (List.mem_cons_of_mem _ hx)) rest g]
    cases h : subTextF repl rest g with
    | error e => rw [exbind_err, exbind_err, exbind_err]
    | ok t => rw [exbind_ok, exbind_ok, exbind_ok, List.cons_append]

theorem subTextF_single (repl : String → Except Err String)
    (pre post body : List Char) (c0 : Char)
    (hpre : ∀ c ∈ pre, c ≠ '$') (hpost : ∀ c ∈ post, c ≠ '$')
    (h0 : c0 ≠ '!') (hbody : ∀ c ∈ body, c ≠ '\x7d') :
    subTextF repl (pre ++ '$' :: '\x7b' :: c0 :: (body ++ '\x7d' :: post))
        ((pre ++ '$' :: '\x7b' :: c0 :: (body ++ '\x7d' :: post)).length + 1) =
      (repl (String.mk (c0 :: body)) >>= fun rep => .ok (pre ++ (rep.toList ++ post))) := by
  have harith1 : (pre ++ '$' :: '\x7b' :: c0 :: (body ++ '\x7d' :: post)).length + 1 =
      pre.length + (('$' :: '\x7b' :: c0 :: (body ++ '\x7d' :: post)).length + 1) := by
    simp only [List.length_append, List.length_cons]
    omega
  rw [harith1, subTextF_noDollar repl pre hpre,
    subTextF_placeholder repl c0 body post _ h0 hbody]
  have hpost2 : subTextF repl post
      ('$' :: '\x7b' :: c0 :: (body ++ '\x7d' :: post)).length = .ok post := by
    have harith3 : ('$' :: '\x7b' :: c0 :: (body ++ '\x7d' :: post)).length =
        post.length + (body.length + 4) := by
      simp only [List.length_append, List.length_cons]
      omega
    have hc := subTextF_noDollar repl post hpost [] (body.length + 4)
    simp only [List.append_nil] at hc
    rw [subTextF_nil, exbind_ok] at hc
    rw [harith3, hc, List.append_nil]
  rw [hpost2]
  cases hrep : repl (String.mk (c0 :: body)) with
  | error e => simp only [exbind_err]
  | ok rep => simp only [exbind_ok]

theorem subTextF_escape (repl : String → Except Err String)
    (pre post esc : List Char)
    (hpre : ∀ c ∈ pre, c ≠ '$') (hpost : ∀ c ∈ post, c ≠ '$')
    (hesc : ∀ c ∈ esc, c ≠ '$') :
    subTextF repl (pre ++ '$' :: '\x7b' :: '!' :: (esc ++ '\x7d' :: post))
        ((pre ++ '$' :: '\x7b' :: '!' :: (esc ++ '\x7d' :: post)).length + 1) =
      .ok (pre ++ '$' :: '\x7b' :: '!' :: (esc ++ '\x7d' :: post)) := by
  have harith1 : (pre ++ '$' :: '\x7b' :: '!' :: (esc ++ '\x7d' :: post)).length + 1 =
      pre.length + (('$' :: '\x7b' :: '!' :: (esc ++ '\x7d' :: post)).length + 1) := by
    simp only [List.length_append, List.length_cons]
    omega
  rw [harith1, subTextF_noDollar repl pre hpre,
    subTextF_cons_nomatch repl '$' ('\x7b' :: '!' :: (esc ++ '\x7d' :: post))
      _ (matchPlaceholder_escape _)]
  have hrest : ∀ c ∈ '\x7b' :: '!' :: (esc ++ '\x7d' :: post), c ≠ '$' := by
    intro c hc
    simp only [List.mem_cons, List.mem_append] at hc
    rcases hc with h1 | h1 | h1 | h1
    · rw [h1]; decide
    · rw [h1]; decide
    · exact hesc c h1
    · rcases h1 with h2 | h2
      · rw [h2]; decide
      · exact hpost c h2
  have hmid : subTextF repl ('\x7b' :: '!' :: (esc ++ '\x7d' :: post))
      ('$' :: '\x7b' :: '!' :: (esc ++ '\x7d' :: post)).length =
      .ok ('\x7b' :: '!' :: (esc ++ '\x7d' :: post)) := by
    have harith2 : ('$' :: '\x7b' :: '!' :: (esc ++ '\x7d' :: post)).length =
        ('\x7b' :: '!' :: (esc ++ '\x7d' :: post)).length + 1 := by
      simp only [List.length_cons]
    have hc := subTextF_noDollar repl ('\x7b' :: '!' :: (esc ++ '\x7d' :: post))
      hrest [] 1
    simp only [List.append_nil] at hc
    rw [subTextF_nil, exbind_ok] at hc
    rw [harith2, hc, List.append_nil]
  rw [hmid, exbind_ok, exbind_ok]

/-- C6: each Sub placeholder (shown once between dollar-free surroundings)
is substituted by the first hit in the chain — local vars entry (resolved,
stringified), else context entry (resolved, stringified), else resource
mock id, else the placeholder text left verbatim — and a placeholder whose
name starts with an exclamation mark is left untouched as a literal
escape. -/
theorem c6_sub_substitution_chain (r : TemplateRenderer) (n : Nat)
    (vars : List (String × Node)) (pre post body esc : List Char) (c0 : Char)
    (hpre : ∀ c ∈ pre, c ≠ '$') (hpost : ∀ c ∈ post, c ≠ '$')
    (h0 : c0 ≠ '!') (hbody : ∀ c ∈ body, c ≠ '\x7d')
    (hesc : ∀ c ∈ esc, c ≠ '$') :
    (∀ v rv, lookupD vars (String.mk (c0 :: body)) = some v →
      r.resolve (n + 1) v = .ok rv →
      r.resolve (n + 2) (.map [("Fn::Sub", .list [
          .str (String.mk (pre ++ '$' :: '\x7b' :: c0 :: (body ++ '\x7d' :: post))),
          .map vars])]) =
        .ok (.str (String.mk (pre ++ ((pyStr rv).toList ++ post)))))
    ∧ (∀ v rv, lookupD vars (String.mk (c0 :: body)) = none →
        lookupD r.context (String.mk (c0 :: body)) = some v →
        r.resolve (n + 1) v = .ok rv →
        r.resolve (n + 2) (.map [("Fn::Sub", .list [
            .str (String.mk (pre ++ '$' :: '\x7b' :: c0 :: (body ++ '\x7d' :: post))),
            .map vars])]) =
          .ok (.str (String.mk (pre ++ ((pyStr rv).toList ++ post)))))
    ∧ (lookupD vars (String.mk (c0 :: body)) = none →
        lookupD r.context (String.mk (c0 :: body)) = none →
        (lookupD r.resources (String.mk (c0 :: body))).isSome = true →
        r.resolve (n + 2) (.map [("Fn::Sub", .list [
            .str (String.mk (pre ++ '$' :: '\x7b' :: c0 :: (body ++ '\x7d' :: post))),
            .map vars])]) =
          .ok (.str (String.mk (pre ++
            (("mock-" ++ asciiLower (String.mk (c0 :: body)) ++ "-id").toList ++
              post)))))
    ∧ (lookupD vars (String.mk (c0 :: body)) = none →
        lookupD r.context (String.mk (c0 :: body)) = none →
        (lookupD r.resources (String.mk (c0 :: body))).isSome = false →
        r.resolve (n + 2) (.map [("Fn::Sub", .list [
            .str (String.mk (pre ++ '$' :: '\x7b' :: c0 :: (body ++ '\x7d' :: post))),
            .map vars])]) =
          .ok (.str (String.mk (pre ++ '$' :: '\x7b' :: c0 ::
            (body ++ '\x7d' :: post)))))
    ∧ (r.resolve (n + 2) (.map [("Fn::Sub", .list [
          .str (String.mk (pre ++ '$' :: '\x7b' :: '!' :: (esc ++ '\x7d' :: post))),
          .map vars])]) =
        .ok (.str (String.mk (pre ++ '$' :: '\x7b' :: '!' ::
          (esc ++ '\x7d' :: post))))) := by
  have master : ∀ rep : String,
      subRepl r (r.resolve (n + 1)) (.map vars) (String.mk (c0 :: body)) = .ok rep →
      r.resolve (n + 2) (.map [("Fn::Sub", .list [
          .str (String.mk (pre ++ '$' :: '\x7b' :: c0 :: (body ++ '\x7d' :: post))),
          .map vars])]) =
        .ok (.str (String.mk (pre ++ (rep.toList ++ post)))) := by
    intro rep hrepl
    have e : r.resolve (n + 2) (.map [("Fn::Sub", .list [
        .str (String.mk (pre ++ '$' :: '\x7b' :: c0 :: (body ++ '\x7d' :: post))),
        .map vars])]) =
        (subTextF (subRepl r (r.resolve (n + 1)) (.map vars))
          (pre ++ '$' :: '\x7b' :: c0 :: (body ++ '\x7d' :: post))
          ((pre ++ '$' :: '\x7b' :: c0 :: (body ++ '\x7d' :: post)).length + 1) >>=
          fun out => .ok (.str (String.mk out))) := rfl
    rw [e, subTextF_single _ pre post body c0 hpre hpost h0 hbody, hrepl,
      exbind_ok, exbind_ok]
  refine ⟨?locals, ?ctx, ?mock, ?verbatim, ?escape⟩
  case locals =>
    intro v rv hv hrv
    have hrepl : subRepl r (r.resolve (n + 1)) (.map vars)
        (String.mk (c0 :: body)) = .ok (pyStr rv) := by
      simp [subRepl, pyContains, hv, hrv, exbind_ok]
    exact master (pyStr rv) hrepl
  case ctx =>
    intro v rv hv hc hrv
    have hrepl : subRepl r (r.resolve (n + 1)) (.map vars)
        (String.mk (c0 :: body)) = .ok (pyStr rv) := by
      simp [subRepl, pyContains, hv, hc, hrv, exbind_ok]
    exact master (pyStr rv) hrepl
  case mock =>
    intro hv hc hres
    have hrepl : subRepl r (r.resolve (n + 1)) (.map vars)
        (String.mk (c0 :: body)) =
        .ok ("mock-" ++ asciiLower (String.mk (c0 :: body)) ++ "-id") := by
      simp [subRepl, pyContains, hv, hc, hres, exbind_ok]
    exact master _ hrepl
  case verbatim =>
    intro hv hc hres
    have hrepl : subRepl r (r.resolve (n + 1)) (.map vars)
        (String.mk (c0 :: body)) =
        .ok ("$\x7b" ++ String.mk (c0 :: body) ++ "\x7d") := by
      simp [subRepl, pyContains, hv, hc, hres, exbind_ok]
    have hm := master _ hrepl
    rw [hm]
    have ht : ("$\x7b" ++ String.mk (c0 :: body) ++ "\x7d").toList =
        '$' :: '\x7b' :: c0 :: (body ++ ['\x7d']) := rfl
    rw [ht]
    simp [List.append_assoc]
  case escape =>
    have e2 : r.resolve (n + 2) (.map [("Fn::Sub", .list [
        .str (String.mk (pre ++ '$' :: '\x7b' :: '!' :: (esc ++ '\x7d' :: post))),
        .map vars])]) =
        (subTextF (subRepl r (r.resolve (n + 1)) (.map vars))
          (pre ++ '$' :: '\x7b' :: '!' :: (esc ++ '\x7d' :: post))
          ((pre ++ '$' :: '\x7b' :: '!' :: (esc ++ '\x7d' :: post)).length + 1) >>=
          fun out => .ok (.str (String.mk out))) := rfl
    rw [e2, subTextF_escape _ pre post esc hpre hpost hesc, exbind_ok]

/-- The renderer of the C6 witness: a context parameter and one resource. -/
def rC6 : TemplateRenderer where
  context := pseudoSeed (.str "us-east-1") ++ [("Env", .str "dev")]
  mappings := .map []
  conditions := []
  resources := [("MyRes", .map [])]

/-- Witness for C6: one concrete instance of every step of the chain — a
local var, a context hit, a resource mock, an unresolvable placeholder left
verbatim, and a literal escape left untouched. -/
theorem c6_witness :
    rC6.resolve 3 (.map [("Fn::Sub", .list [.str "A-$\x7bVar\x7d-B",
        .map [("Var", .str "local")]])]) = .ok (.str "A-local-B")
    ∧ rC6.resolve 3 (.map [("Fn::Sub", .list [.str "A-$\x7bEnv\x7d-B",
        .map []])]) = .ok (.str "A-dev-B")
    ∧ rC6.resolve 3 (.map [("Fn::Sub", .list [.str "A-$\x7bMyRes\x7d-B",
        .map []])]) = .ok (.str "A-mock-myres-id-B")
    ∧ rC6.resolve 3 (.map [("Fn::Sub", .list [.str "A-$\x7bWhoops\x7d-B",
        .map []])]) = .ok (.str "A-$\x7bWhoops\x7d-B")
    ∧ rC6.resolve 3 (.map [("Fn::Sub", .list [.str "A-$\x7b!Lit\x7d-B",
        .map []])]) = .ok (.str "A-$\x7b!Lit\x7d-B") := by
  refine ⟨?_, ?_, ?_, ?_, ?_⟩
  · exact ((c6_sub_substitution_chain rC6 1 [("Var", .str "local")]
      "A-".toList "-B".toList "ar".toList "Lit".toList 'V'
      (by decide) (by decide) (by decide) (by decide) (by decide)).1
      (.str "local") (.str "local") rfl rfl).trans rfl
  · exact ((c6_sub_substitution_chain rC6 1 [] "A-".toList "-B".toList
      "nv".toList "Lit".toList 'E'
      (by decide) (by decide) (by decide) (by decide) (by decide)).2.1
      (.str "dev") (.str "dev") rfl rfl rfl).trans rfl
  · exact ((c6_sub_substitution_chain rC6 1 [] "A-".toList "-B".toList
      "yRes".toList "Lit".toList 'M'
      (by decide) (by decide) (by decide) (by decide) (by decide)).2.2.1
      rfl rfl rfl).trans rfl
  · exact ((c6_sub_substitution_chain rC6 1 [] "A-".toList "-B".toList
      "hoops".toList "Lit".toList 'W'
      (by decide) (by decide) (by decide) (by decide) (by decide)).2.2.2.1
      rfl rfl rfl).trans rfl
  · exact ((c6_sub_substitution_chain rC6 1 [] "A-".toList "-B".toList
      "x".toList "Lit".toList 'y'
      (by decide) (by decide) (by decide) (by decide) (by decide)).2.2.2.2).trans rfl
